import Mathlib

/-!
Verification of the metadata-reconciliation and catalog-building core of the
raven-swift-s3-music-player backend.

The Python source is shallowly embedded: every function below is translated
from the corresponding function in `backend/utils/identifiers.py`,
`backend/services/theaudiodb.py`, `backend/services/lastfm.py`,
`backend/services/musicbrainz.py` and `backend/processors/catalog.py`.
Optional string fields of the Python dict/dataclass records are modelled as
`String` with `""` standing for both `None` and the empty string (Python
truthiness tests `if s:` become `s ≠ ""`), and optional integers as
`Option Int` (with the Python `x or 999` / `x or fallback` idiom spelled out
explicitly, since `0` is falsy in Python).
-/

namespace Raven

/-! ## Python string primitives -/

/-- The set of characters stripped by Python `str.strip()` and matched by the
regex class `\s` on `str` inputs: ASCII whitespace, the file/group/record/unit
separators, NEL, NBSP and the Unicode space characters. -/
def pySpace (c : Char) : Bool :=
  let n := c.toNat
  n == 32 || (9 ≤ n && n ≤ 13) || (28 ≤ n && n ≤ 31) || n == 0x85 || n == 0xa0 ||
  n == 0x1680 || (0x2000 ≤ n && n ≤ 0x200a) || n == 0x2028 || n == 0x2029 ||
  n == 0x202f || n == 0x205f || n == 0x3000

/-- Python `str.strip()` on the character list. -/
def pyStripL (l : List Char) : List Char :=
  ((l.dropWhile pySpace).reverse.dropWhile pySpace).reverse

/-- Python `str.strip()`. -/
def pyStrip (s : String) : String := String.mk (pyStripL s.data)

/-- Python `a or b` for strings (empty string and `None` are both falsy and
both modelled by `""`). -/
def pyOrS (a b : String) : String := if a = "" then b else a

/-- Python code-point-wise lexicographic `<` on strings (the order used by
`sorted()` and tuple comparison), as a boolean on character lists. -/
def strLtL : List Char → List Char → Bool
  | [], [] => false
  | [], _ :: _ => true
  | _ :: _, [] => false
  | a :: as, b :: bs =>
    if a.toNat < b.toNat then true
    else if b.toNat < a.toNat then false
    else strLtL as bs

/-- Python `<=` on strings (total order: `a <= b` iff `¬ b < a`). -/
def strLeB (a b : String) : Bool := ! strLtL b.data a.data

/-- The propositional form of the Python string order. -/
def strLe (a b : String) : Prop := strLeB a b = true

instance : DecidableRel strLe := fun a b => by unfold strLe; infer_instance

/-- Python `sorted()` on a list of strings (code-point order). -/
def sortStrings (l : List String) : List String := List.insertionSort strLe l

/-- Python `str.replace(c, rep)` for a single-character pattern, on character
lists. -/
def replaceCharL (c : Char) (rep : List Char) : List Char → List Char
  | [] => []
  | x :: xs =>
    if x.toNat == c.toNat then rep ++ replaceCharL c rep xs
    else x :: replaceCharL c rep xs

/-- Python `str.replace(c, rep)` for a single-character pattern. -/
def pyReplaceChar (c : Char) (rep : String) (s : String) : String :=
  String.mk (replaceCharL c rep.data s.data)

/-- Python `str.split("/")`: splits at every slash and keeps empty pieces, so
the result always has (number of slashes + 1) parts. -/
def splitSlash : List Char → List (List Char)
  | [] => [[]]
  | c :: cs =>
    let r := splitSlash cs
    if c.toNat == 47 then [] :: r
    else
      match r with
      | h :: t => (c :: h) :: t
      | [] => [[c]]

/-! ## `backend/utils/identifiers.py` -/

/-- ASCII decimal digit, the characters matched by `\d` that occur in the
date strings this program handles. -/
def isAsciiDigit (c : Char) : Bool := 48 ≤ c.toNat && c.toNat ≤ 57

def digitToNat (c : Char) : Nat := c.toNat - 48

/-- The `str | int | None` input type of `extract_year`. -/
inductive DateValue where
  | dnone : DateValue
  | dint (i : Int) : DateValue
  | dstr (s : String) : DateValue
deriving DecidableEq

/-- `extract_year` from `backend/utils/identifiers.py`: integers are returned
as is; strings are stripped and the leading 4-digit run, if any, is returned
as an integer; everything else gives `None`. -/
def extract_year : DateValue → Option Int
  | .dnone => none
  | .dint i => some i
  | .dstr s =>
    let ds := pyStrip s
    if ds = "" then none
    else
      match ds.data with
      | a :: b :: c :: d :: _ =>
        if isAsciiDigit a && isAsciiDigit b && isAsciiDigit c && isAsciiDigit d then
          some ((1000 * digitToNat a + 100 * digitToNat b + 10 * digitToNat c +
            digitToNat d : Nat) : Int)
        else none
      | _ => none

/-- Whether a string begins with four ASCII digits (the pattern `^(\d{4})`). -/
def startsWith4Digits (s : String) : Bool :=
  match s.data with
  | a :: b :: c :: d :: _ =>
    isAsciiDigit a && isAsciiDigit b && isAsciiDigit c && isAsciiDigit d
  | _ => false

/-- The character class `[\s_]` of the first substitution in
`sanitize_s3_key`. -/
def spaceOrUnderscore (c : Char) : Bool := pySpace c || c.toNat == 95

/-- The character class `[A-Za-z0-9-]` kept by the second substitution in
`sanitize_s3_key`. -/
def isAlnumDash (c : Char) : Bool :=
  let n := c.toNat
  (65 ≤ n && n ≤ 90) || (97 ≤ n && n ≤ 122) || (48 ≤ n && n ≤ 57) || n == 45

def isDashChar (c : Char) : Bool := c.toNat == 45

/-- `re.sub(p+, "-", l)`: replaces every maximal run of characters satisfying
`p` by a single dash.  The boolean flag records whether the previous character
belonged to a run. -/
def collapseAux (p : Char → Bool) (inRun : Bool) : List Char → List Char
  | [] => []
  | c :: cs =>
    if p c then
      if inRun then collapseAux p true cs
      else '-' :: collapseAux p true cs
    else c :: collapseAux p false cs

def collapseRuns (p : Char → Bool) (l : List Char) : List Char := collapseAux p false l

/-- Python `str.strip("-")`. -/
def stripDashes (l : List Char) : List Char :=
  ((l.dropWhile isDashChar).reverse.dropWhile isDashChar).reverse

/-- The four-stage pipeline in the body of `sanitize_s3_key`, on character
lists: collapse whitespace/underscore runs to a dash, drop everything outside
`[A-Za-z0-9-]`, collapse dash runs and trim dashes. -/
def sanitizePipeline (l : List Char) : List Char :=
  stripDashes (collapseRuns isDashChar ((collapseRuns spaceOrUnderscore l).filter isAlnumDash))

/-- `sanitize_s3_key` from `backend/utils/identifiers.py` (the Python default
for `fallback` is `"Unknown"`, which call sites below pass explicitly). -/
def sanitize_s3_key (name : String) (fallback : String) : String :=
  if name = "" then fallback
  else
    let s := sanitizePipeline name.data
    if s = [] then fallback else String.mk s

/-! ## `TheAudioDBService._normalize_album_name`

The regular-expression pass that deletes the edition-suffix patterns
(`(Deluxe Version)`, `(Special Edition)`, `(Expanded Edition)`,
`(Remastered)`, `(Bonus Tracks)`, trailing `- Single`, trailing `- EP`) is
abstracted as a parameter `strip`; the function below embeds the surrounding
logic of `_normalize_album_name`: apply the pattern pass, strip whitespace,
and return the original name if the result is empty. -/
def normalizeAlbumName (strip : String → String) (albumName : String) : String :=
  let normalized := pyStrip (strip albumName)
  if normalized = "" then albumName else normalized

/-! ## Data model (`backend/models/catalog.py`, `backend/services/musicbrainz.py`)

Optional string fields use `""` for `None`; `release_date` is an optional
integer year. -/

structure ArtistInfo where
  bio : String := ""
  imageUrl : String := ""
  genre : String := ""
  style : String := ""
  mood : String := ""
deriving DecidableEq

structure AlbumInfo where
  imageUrl : String := ""
  wiki : String := ""
  releaseDate : Option Int := none
  genre : String := ""
  style : String := ""
  mood : String := ""
  theme : String := ""
  name : String := ""
deriving DecidableEq

structure TrackInfo where
  name : String := ""
  album : String := ""
  genre : String := ""
  style : String := ""
  mood : String := ""
  theme : String := ""
deriving DecidableEq

structure ArtistDetails where
  mbid : String := ""
  name : String := ""
  artistType : String := ""
  area : String := ""
  beginDate : String := ""
  endDate : String := ""
  disambiguation : String := ""
deriving DecidableEq

structure ReleaseDetails where
  mbid : String := ""
  title : String := ""
  releaseDate : Option Int := none
  releaseType : String := ""
  country : String := ""
  label : String := ""
  barcode : String := ""
  mediaFormat : String := ""
deriving DecidableEq

/-- One resolved track dictionary as consumed by `CatalogBuilder`; only the
keys read or written by `catalog.py` are modelled. -/
structure Track where
  title : String := ""
  artist : String := ""
  albumArtist : String := ""
  album : String := ""
  trackNumber : Option Int := none
  s3Key : String := ""
  url : String := ""
  embeddedArtworkUrl : String := ""
  genre : String := ""
  style : String := ""
  mood : String := ""
  theme : String := ""
  albumImageUrl : String := ""
deriving DecidableEq

structure Album where
  name : String := ""
  imageUrl : String := ""
  wiki : String := ""
  releaseDate : Option Int := none
  genre : String := ""
  style : String := ""
  mood : String := ""
  theme : String := ""
  tracks : List Track := []
  releaseType : String := ""
  country : String := ""
  label : String := ""
  barcode : String := ""
  mediaFormat : String := ""
deriving DecidableEq

structure Artist where
  name : String := ""
  bio : String := ""
  imageUrl : String := ""
  genre : String := ""
  style : String := ""
  mood : String := ""
  albums : List Album := []
  artistType : String := ""
  area : String := ""
  beginDate : String := ""
  endDate : String := ""
  disambiguation : String := ""
deriving DecidableEq

structure Catalog where
  artists : List Artist := []
  totalTracks : Nat := 0
  generatedAt : String := ""
deriving DecidableEq

/-! ## The service environment seen by `CatalogBuilder`

`CatalogBuilder` holds a `TheAudioDBService` plus optional MusicBrainz,
storage and Last.fm services.  Their lookup methods always return a value and
never raise (established independently for TheAudioDB below), so the builder
sees them as total functions.  Per-process caching makes repeated calls
return the same value, which the pure-function model reflects. -/

structure MBApi where
  getArtistDetails : String → ArtistDetails
  getReleaseDetails : String → String → ReleaseDetails

structure Env where
  fetchArtistInfo : String → ArtistInfo
  fetchAlbumInfo : String → String → AlbumInfo
  fetchTrackInfo : String → String → TrackInfo
  musicbrainz : Option MBApi
  lastfm : Option (String → String → AlbumInfo)
  storagePublicUrl : Option (String → String)
  nowIso : String

/-! ## `CatalogBuilder` (`backend/processors/catalog.py`) -/

/-- Grouping key: `track.get("album_artist") or track.get("artist") or
"Unknown Artist"`. -/
def artistKeyOf (t : Track) : String :=
  if t.albumArtist ≠ "" then t.albumArtist
  else if t.artist ≠ "" then t.artist
  else "Unknown Artist"

/-- Grouping key: `track.get("album") or "Unknown Album"`. -/
def albumKeyOf (t : Track) : String :=
  if t.album ≠ "" then t.album else "Unknown Album"

/-- `t.get("track_number") or 999`: missing and zero track numbers are both
falsy in Python and become the sentinel 999. -/
def pyTrackNum (o : Option Int) : Int :=
  match o with
  | none => 999
  | some n => if n = 0 then 999 else n

/-- The sort key of line 106: `(t.get("track_number") or 999,
t.get("title", ""))`. -/
def trackSortKey (t : Track) : Int × String := (pyTrackNum t.trackNumber, t.title)

/-- Python tuple `<=` on the sort keys (lexicographic). -/
def trackLeB (a b : Track) : Bool :=
  let ka := trackSortKey a
  let kb := trackSortKey b
  if ka.1 < kb.1 then true
  else if kb.1 < ka.1 then false
  else strLeB ka.2 kb.2

def trackLe (a b : Track) : Prop := trackLeB a b = true

instance : DecidableRel trackLe := fun a b => by unfold trackLe; infer_instance

/-- The in-place `tracks.sort(key=...)` at the top of `_build_album`. -/
def sortTracks (l : List Track) : List Track := List.insertionSort trackLe l

/-- `_is_album_info_empty`: no image, no wiki, no genre. -/
def isAlbumInfoEmpty (i : AlbumInfo) : Bool :=
  i.imageUrl == "" && i.wiki == "" && i.genre == ""

/-- Python `p or q` on optional ints (an int `0` is falsy). -/
def pyOrOptInt (p q : Option Int) : Option Int :=
  match p with
  | none => q
  | some n => if n = 0 then q else some n

/-- `_merge_album_info`: keep every non-empty field of `primary`, fill gaps
from `fallback`. -/
def mergeAlbumInfo (primary fallback : AlbumInfo) : AlbumInfo :=
  { imageUrl := pyOrS primary.imageUrl fallback.imageUrl
    wiki := pyOrS primary.wiki fallback.wiki
    releaseDate := pyOrOptInt primary.releaseDate fallback.releaseDate
    genre := pyOrS primary.genre fallback.genre
    style := pyOrS primary.style fallback.style
    mood := pyOrS primary.mood fallback.mood
    theme := pyOrS primary.theme fallback.theme
    name := pyOrS primary.name fallback.name }

/-- The album info after the Last.fm fallback merge (lines 109-115): the
TheAudioDB result, merged with the Last.fm result when a Last.fm service is
configured and the TheAudioDB result is judged empty. -/
def buildAlbumMergedInfo (env : Env) (artistName albumName : String) : AlbumInfo :=
  let info := env.fetchAlbumInfo artistName albumName
  match env.lastfm with
  | some lf =>
    if isAlbumInfoEmpty info then mergeAlbumInfo info (lf artistName albumName)
    else info
  | none => info

/-- The `album_image` value after the Last.fm fallback (lines 110-118). -/
def buildAlbumMergedImage (env : Env) (artistName albumName : String) : String :=
  let info := env.fetchAlbumInfo artistName albumName
  let img := info.imageUrl
  match env.lastfm with
  | some _ =>
    if isAlbumInfoEmpty info then
      let m := buildAlbumMergedInfo env artistName albumName
      if img = "" && m.imageUrl ≠ "" then m.imageUrl else img
    else img
  | none => img

/-- `tracks[0].get("title", "")` of the sorted track list, with `""` when the
list is empty (in which case the track-search fallback is skipped, exactly as
in lines 138-140). -/
def firstTrackTitle (l : List Track) : String :=
  match l with
  | [] => ""
  | t :: _ => t.title

/-- The album-name / album-info / album-image resolution of lines 127-157:
returns `(display_album_name, album_info, album_image)` after the corrected
name has been chosen and, in the track-search branch, the second
`fetch_album_info` call has possibly replaced the album info. -/
def resolveAlbum (env : Env) (artistName albumName : String)
    (sorted : List Track) (info1 : AlbumInfo) (img2 : String)
    (rd : Option ReleaseDetails) : String × AlbumInfo × String :=
  if info1.name ≠ "" then (info1.name, info1, img2)
  else
    let step : String × AlbumInfo × String :=
      if firstTrackTitle sorted ≠ "" then
        let ti := env.fetchTrackInfo artistName (firstTrackTitle sorted)
        if ti.album ≠ "" then
          let ci := env.fetchAlbumInfo artistName ti.album
          if ci.wiki ≠ "" || ci.imageUrl ≠ "" then
            (ti.album, ci, if img2 = "" && ci.imageUrl ≠ "" then ci.imageUrl else img2)
          else (ti.album, info1, img2)
        else (albumName, info1, img2)
      else (albumName, info1, img2)
    if step.1 = albumName then
      match rd with
      | some r => if r.title ≠ "" then (r.title, step.2.1, step.2.2) else step
      | none => step
    else step

/-- The per-track enrichment of lines 170-200: overwrite the album name,
rewrite the storage key when the album was renamed, fill genre/style/mood/
theme gaps from the album level, and propagate the album image. -/
def enrichTrack (env : Env) (artistName albumName displayName : String)
    (info : AlbumInfo) (albumGenre albumImage : String) (t : Track) : Track :=
  let t1 := { t with album := displayName }
  let t2 :=
    if displayName ≠ albumName && t1.s3Key ≠ "" then
      let parts := splitSlash t1.s3Key.data
      if 3 ≤ parts.length then
        let filename := parts.getLastD []
        let newKey := sanitize_s3_key artistName "Unknown" ++ "/" ++
          sanitize_s3_key displayName "Unknown" ++ "/" ++ String.mk filename
        let t2a := { t1 with s3Key := newKey }
        match env.storagePublicUrl with
        | some pub => { t2a with url := pub newKey }
        | none => t2a
      else t1
    else t1
  { t2 with
    genre := pyOrS t2.genre albumGenre
    style := pyOrS t2.style info.style
    mood := pyOrS t2.mood info.mood
    theme := pyOrS t2.theme info.theme
    albumImageUrl := albumImage
    embeddedArtworkUrl :=
      if t2.embeddedArtworkUrl = "" && albumImage ≠ "" then albumImage
      else t2.embeddedArtworkUrl }

/-- The deduplication loop of lines 205-214, with `seen` the set of storage
keys already kept. -/
def dedupGo (seen : List String) : List Track → List Track
  | [] => []
  | t :: ts =>
    if t.s3Key ≠ "" && !(seen.contains t.s3Key) then
      t :: dedupGo (t.s3Key :: seen) ts
    else if t.s3Key = "" then t :: dedupGo seen ts
    else dedupGo seen ts

/-- Deduplicate enriched tracks by storage key, keeping the first occurrence
and keeping every keyless track. -/
def dedupTracks (l : List Track) : List Track := dedupGo [] l

/-- The storage key of a track, as an optional value (`none` when absent or
empty). -/
def trackKey (t : Track) : Option String :=
  if t.s3Key = "" then none else some t.s3Key

/-- The `release_details` value of `_build_album` (lines 128-130): present
exactly when a MusicBrainz service is configured. -/
def buildAlbumRd (env : Env) (artistName albumName : String) : Option ReleaseDetails :=
  match env.musicbrainz with
  | some m => some (m.getReleaseDetails artistName albumName)
  | none => none

/-- The `album_image` value after the embedded-artwork fallback of lines
120-125: the first sorted track with an embedded artwork URL supplies the
album image when no provider had one. -/
def buildAlbumImg2 (env : Env) (artistName albumName : String)
    (sorted : List Track) : String :=
  let img1 := buildAlbumMergedImage env artistName albumName
  if img1 = "" then
    match sorted.find? (fun t => t.embeddedArtworkUrl ≠ "") with
    | some t => t.embeddedArtworkUrl
    | none => ""
  else img1

/-- `_build_album` up to (but not including) the deduplication pass: the
returned `Album` carries the enriched, sorted, *pre-dedup* track list. -/
def buildAlbumPre (env : Env) (artistName albumName : String)
    (tracks : List Track) (artistGenre : String) : Album :=
  let sorted := sortTracks tracks
  let info1 := buildAlbumMergedInfo env artistName albumName
  let img2 := buildAlbumImg2 env artistName albumName sorted
  let rd : Option ReleaseDetails := buildAlbumRd env artistName albumName
  let res := resolveAlbum env artistName albumName sorted info1 img2 rd
  let displayName := res.1
  let info2 := res.2.1
  let img3 := res.2.2
  let releaseDate : Option Int :=
    match rd with
    | some r => pyOrOptInt r.releaseDate info2.releaseDate
    | none => info2.releaseDate
  let albumGenre := pyOrS info2.genre artistGenre
  let enriched := sorted.map
    (enrichTrack env artistName albumName displayName info2 albumGenre img3)
  { name := displayName
    imageUrl := img3
    wiki := info2.wiki
    releaseDate := releaseDate
    genre := albumGenre
    style := info2.style
    mood := info2.mood
    theme := info2.theme
    tracks := enriched
    releaseType := match rd with | some r => r.releaseType | none => ""
    country := match rd with | some r => r.country | none => ""
    label := match rd with | some r => r.label | none => ""
    barcode := match rd with | some r => r.barcode | none => ""
    mediaFormat := match rd with | some r => r.mediaFormat | none => "" }

/-- The enriched (pre-dedup) track list of an album build. -/
def buildAlbumEnriched (env : Env) (artistName albumName : String)
    (tracks : List Track) (artistGenre : String) : List Track :=
  (buildAlbumPre env artistName albumName tracks artistGenre).tracks

/-- `_build_album`: the pre-dedup build followed by the deduplication pass. -/
def buildAlbum (env : Env) (artistName albumName : String)
    (tracks : List Track) (artistGenre : String) : Album :=
  let pre := buildAlbumPre env artistName albumName tracks artistGenre
  { pre with tracks := dedupTracks pre.tracks }

/-- The sorted, distinct artist grouping keys of `build` (line 52). -/
def artistKeys (l : List Track) : List String :=
  sortStrings ((l.map artistKeyOf).dedup)

/-- The sorted, distinct album grouping keys under one artist (line 77). -/
def albumKeysFor (l : List Track) (a : String) : List String :=
  sortStrings (((l.filter (fun t => artistKeyOf t == a)).map albumKeyOf).dedup)

/-- The tracks grouped under artist key `a` and album key `b`. -/
def bucket (l : List Track) (a b : String) : List Track :=
  (l.filter (fun t => artistKeyOf t == a)).filter (fun t => albumKeyOf t == b)

/-- `_build_artist`. -/
def buildArtist (env : Env) (allTracks : List Track) (name : String) : Artist :=
  let info := env.fetchArtistInfo name
  let details : Option ArtistDetails :=
    match env.musicbrainz with
    | some m => some (m.getArtistDetails name)
    | none => none
  { name := name
    bio := info.bio
    imageUrl := info.imageUrl
    genre := info.genre
    style := info.style
    mood := info.mood
    albums := (albumKeysFor allTracks name).map
      (fun b => buildAlbum env name b (bucket allTracks name b) info.genre)
    artistType := match details with | some d => d.artistType | none => ""
    area := match details with | some d => d.area | none => ""
    beginDate := match details with | some d => d.beginDate | none => ""
    endDate := match details with | some d => d.endDate | none => ""
    disambiguation := match details with | some d => d.disambiguation | none => "" }

/-- `CatalogBuilder.build`: group by artist and album key, build each artist
in sorted key order, and record the *pre-dedup* track count as the total. -/
def build (env : Env) (tracks : List Track) : Catalog :=
  { artists := (artistKeys tracks).map (buildArtist env tracks)
    totalTracks := tracks.length
    generatedAt := env.nowIso }

/-- The total number of tracks actually stored in the albums of a catalog. -/
def catalogTrackSum (c : Catalog) : Nat :=
  (c.artists.map (fun ar => (ar.albums.map (fun al => al.tracks.length)).sum)).sum

/-! ## `TheAudioDBService` at the exception level (`backend/services/theaudiodb.py`)

For the error-handling claim the service is embedded a second time, one level
lower: HTTP attempts and image uploads are `Except`-valued (an `error` is a
raised exception), `_make_request` swallows transport errors and returns the
first successful attempt, and the `try/except` blocks of
`fetch_artist_info` / `fetch_album_info` are explicit.  The body of each
`try` returns `Except (String × Info) Info`, the error carrying the
partially-filled result object at the point where the exception was raised,
exactly as the mutated `result` survives the `except` clause in Python. -/

inductive Json where
  | jnull : Json
  | jstr (s : String) : Json
  | jnum (n : Int) : Json
  | jarr (xs : List Json) : Json
  | jobj (fields : List (String × Json)) : Json

/-- Python `dict.get(k)` (non-dicts have no `.get`; the service only calls it
on response objects). -/
def Json.getKey : Json → String → Option Json
  | .jobj fs, k => (fs.find? (fun p => p.1 == k)).map (fun p => p.2)
  | _, _ => none

/-- Python truthiness of a JSON value. -/
def Json.truthy : Json → Bool
  | .jnull => false
  | .jstr s => s ≠ ""
  | .jnum n => n ≠ 0
  | .jarr xs => !xs.isEmpty
  | .jobj fs => !fs.isEmpty

/-- A string field of a response object (`None`/missing/non-string becomes
`""`, matching the `String`-with-`""` convention of the data model). -/
def jstrField (j : Json) (k : String) : String :=
  match j.getKey k with
  | some (.jstr s) => s
  | _ => ""

/-- The environment of one `TheAudioDBService` call: per-attempt transport
results for each endpoint/parameter pair, the storage uploads (which may
raise), the optional MusicBrainz lookup (called inside the `try`, so it may
raise too), and the edition-suffix pattern pass. -/
structure TadbEnv where
  request : String → List (String × String) → Nat → Except String Json
  uploadArtistImage : String → String → Except String (Option String)
  uploadAlbumImage : String → String → String → Except String (Option String)
  mbReleaseDetails : Option (String → String → Except String ReleaseDetails)
  stripEditions : String → String

/-- `_make_request`: try up to `maxRetries` attempts, return the first
successful JSON response, `none` when every attempt fails (the
`requests.RequestException` handler swallows each failure). -/
def makeRequest (env : TadbEnv) (endpoint : String)
    (ps : List (String × String)) (maxRetries : Nat) : Option Json :=
  (List.range maxRetries).findSome? (fun i => (env.request endpoint ps i).toOption)

/-- `dict.fromkeys` deduplication: keep the first occurrence of each string. -/
def dedupeKeepFirstAux (seen : List String) : List String → List String
  | [] => []
  | x :: xs =>
    if seen.contains x then dedupeKeepFirstAux seen xs
    else x :: dedupeKeepFirstAux (x :: seen) xs

/-- `_get_name_variations`: the original name, then periods removed, periods
spaced, slashes removed, slashes replaced by spaces; deduplicated keeping the
first occurrence. -/
def getNameVariations (name : String) : List String :=
  let v0 := [name]
  let noPeriods := pyReplaceChar '.' "" name
  let v1 := if noPeriods ≠ name && pyStrip noPeriods ≠ "" then v0 ++ [noPeriods] else v0
  let spaced := pyStrip (pyReplaceChar '.' ". " name)
  let v2 := if spaced ≠ name then v1 ++ [spaced] else v1
  let noSlashes := pyReplaceChar '/' "" name
  let v3 := if noSlashes ≠ name && pyStrip noSlashes ≠ "" then v2 ++ [noSlashes] else v2
  let slashSpace := pyReplaceChar '/' " " name
  let v4 := if slashSpace ≠ name then v3 ++ [slashSpace] else v3
  dedupeKeepFirstAux [] v4

/-- The variation search loop of `fetch_artist_info`: the first variation
whose response is truthy with a truthy `artists` array yields `artists[0]`
(a non-array `artists` payload is treated as absent). -/
def searchArtistData (env : TadbEnv) (name : String) : Option Json :=
  (getNameVariations name).findSome? (fun v =>
    match makeRequest env "search.php" [("s", v)] 3 with
    | some d =>
      if d.truthy then
        match d.getKey "artists" with
        | some (.jarr (x :: _)) => some x
        | _ => none
      else none
    | none => none)

/-- The `try` body of `fetch_artist_info`.  The canonical-name/artist-id
cache write has no effect on the returned value and is not modelled. -/
def fetchArtistInfoBody (env : TadbEnv) (name : String) :
    Except (String × ArtistInfo) ArtistInfo :=
  match searchArtistData env name with
  | none => .ok {}
  | some ad =>
    let bio := jstrField ad "strBiographyEN"
    let r1 : ArtistInfo :=
      { bio := if bio ≠ "" then pyStrip bio else ""
        genre := jstrField ad "strGenre"
        style := jstrField ad "strStyle"
        mood := jstrField ad "strMood"
        imageUrl := "" }
    let imageUrl := pyOrS (jstrField ad "strArtistThumb")
      (pyOrS (jstrField ad "strArtistFanart") (jstrField ad "strArtistFanart2"))
    if imageUrl ≠ "" then
      match env.uploadArtistImage imageUrl name with
      | .error e => .error (e, r1)
      | .ok (some u) => .ok { r1 with imageUrl := u }
      | .ok none => .ok r1
    else .ok r1

/-- `fetch_artist_info`: the `try` body with its `except Exception` clause,
which logs and falls through to `return result`. -/
def fetchArtistInfoE (env : TadbEnv) (name : String) : Except String ArtistInfo :=
  match fetchArtistInfoBody env name with
  | .ok r => .ok r
  | .error (_, partRes) => .ok partRes

/-- One `searchalbum.php` lookup: a truthy response with a truthy `album`
array yields `album[0]` (a non-array `album` payload is treated as absent). -/
def searchAlbumData (env : TadbEnv) (canonicalName q : String) : Option Json :=
  match makeRequest env "searchalbum.php" [("s", canonicalName), ("a", q)] 3 with
  | some d =>
    if d.truthy then
      match d.getKey "album" with
      | some (.jarr (x :: _)) => some x
      | _ => none
    else none
  | none => none

/-- The `try` body of `fetch_album_info`: MBID lookup via MusicBrainz first,
then edition-normalized name search, then raw name search, then the
artist-id album listing matched case-insensitively; on found data, extract
the corrected name, wiki, year and metadata and upload the artwork. -/
def fetchAlbumInfoBody (env : TadbEnv) (cached : Option (String × String))
    (artistName albumName : String) : Except (String × AlbumInfo) AlbumInfo :=
  let canonicalName := match cached with | some c => c.1 | none => artistName
  let artistId : Option String := match cached with | some c => some c.2 | none => none
  let mbStep : Except (String × AlbumInfo) (Option Json × String) :=
    match env.mbReleaseDetails with
    | none => .ok (none, "")
    | some mbf =>
      match mbf artistName albumName with
      | .error e => .error (e, {})
      | .ok rd =>
        if rd.mbid ≠ "" then
          let ad : Option Json :=
            match makeRequest env "album-mb.php" [("i", rd.mbid)] 3 with
            | some d =>
              if d.truthy then
                match d.getKey "album" with
                | some (.jarr (x :: _)) => some x
                | some v => if v.truthy then some v else none
                | none => none
              else none
            | none => none
          .ok (ad, rd.title)
        else .ok (none, "")
  match mbStep with
  | .error e => .error e
  | .ok (ad0, mbTitle) =>
    let normalized := normalizeAlbumName env.stripEditions albumName
    let ad1 : Option Json :=
      match ad0 with
      | some x => some x
      | none =>
        if normalized ≠ albumName then searchAlbumData env canonicalName normalized
        else none
    let ad2 : Option Json :=
      match ad1 with
      | some x => some x
      | none => searchAlbumData env canonicalName albumName
    let ad3 : Option Json :=
      match ad2 with
      | some x => some x
      | none =>
        match artistId with
        | some aid =>
          match makeRequest env "album.php" [("i", aid)] 3 with
          | some d =>
            if d.truthy then
              match d.getKey "album" with
              | some (.jarr xs) =>
                xs.find? (fun al => (jstrField al "strAlbum").toLower == albumName.toLower)
              | _ => none
            else none
          | none => none
        | none => none
    match ad3 with
    | none => .ok {}
    | some ad =>
      let wiki := pyOrS (jstrField ad "strDescriptionEN") (jstrField ad "strDescription")
      let ryear : Option Int :=
        match ad.getKey "intYearReleased" with
        | some (.jnum n) => if n ≠ 0 then extract_year (.dint n) else none
        | some (.jstr s) => if s ≠ "" then extract_year (.dstr s) else none
        | _ => none
      let r1 : AlbumInfo :=
        { name := pyOrS (jstrField ad "strAlbum") mbTitle
          wiki := if wiki ≠ "" then pyStrip wiki else ""
          releaseDate := ryear
          genre := jstrField ad "strGenre"
          style := jstrField ad "strStyle"
          mood := jstrField ad "strMood"
          theme := jstrField ad "strTheme"
          imageUrl := "" }
      let imageUrl := pyOrS (jstrField ad "strAlbumThumb") (jstrField ad "strAlbumThumbHQ")
      if imageUrl ≠ "" then
        let s3AlbumName := pyOrS r1.name albumName
        match env.uploadAlbumImage imageUrl artistName s3AlbumName with
        | .error e => .error (e, r1)
        | .ok (some u) => .ok { r1 with imageUrl := u }
        | .ok none => .ok r1
      else .ok r1

/-- `fetch_album_info`: the `try` body with its `except Exception` clause. -/
def fetchAlbumInfoE (env : TadbEnv) (cached : Option (String × String))
    (artistName albumName : String) : Except String AlbumInfo :=
  match fetchAlbumInfoBody env cached artistName albumName with
  | .ok r => .ok r
  | .error (_, partRes) => .ok partRes

/-! ## Specification-side description of the deduplication pass

The spec describes the pass as: iterate the enriched tracks in order, keep
every keyless track, keep the first track seen for each storage key, drop
every later track with the same key.  `specKeepFirst` is that description
written directly (dropping all later same-key tracks as soon as a key is
first seen); it is compared with the source-derived `dedupTracks`. -/
def specKeepFirst : List Track → List Track
  | [] => []
  | t :: ts =>
    if t.s3Key = "" then t :: specKeepFirst ts
    else t :: specKeepFirst (ts.filter (fun u => u.s3Key ≠ t.s3Key))
termination_by l => l.length
decreasing_by
  · simp only [List.length_cons]
    omega
  · simp only [List.length_cons]
    exact Nat.lt_succ_of_le (List.length_filter_le _ _)

/-! ## Concrete fixtures used by witnesses and counterexamples -/

/-- An environment in which every lookup comes back empty and no optional
service is configured. -/
def envTrivial : Env :=
  { fetchArtistInfo := fun _ => {}
    fetchAlbumInfo := fun _ _ => {}
    fetchTrackInfo := fun _ _ => {}
    musicbrainz := none
    lastfm := none
    storagePublicUrl := none
    nowIso := "" }

/-- An environment in which the free-text album search fails, the track-level
search returns exactly the local album name, and MusicBrainz knows the
release under a different title. -/
def envTrackEqual : Env :=
  { fetchArtistInfo := fun _ => {}
    fetchAlbumInfo := fun _ _ => {}
    fetchTrackInfo := fun _ _ => { album := "AlbumX" }
    musicbrainz := some
      { getArtistDetails := fun _ => {}
        getReleaseDetails := fun _ _ => { title := "Other" } }
    lastfm := none
    storagePublicUrl := none
    nowIso := "" }

/-- An environment that renames local album `"A"` to `"Z"` and leaves every
other album name alone. -/
def envRename : Env :=
  { fetchArtistInfo := fun _ => {}
    fetchAlbumInfo := fun _ b => if b == "A" then { name := "Z" } else {}
    fetchTrackInfo := fun _ _ => {}
    musicbrainz := none
    lastfm := none
    storagePublicUrl := none
    nowIso := "" }

/-- An environment whose album-info lookup reports a corrected name for every
album. -/
def envNamed : Env :=
  { fetchArtistInfo := fun _ => {}
    fetchAlbumInfo := fun _ _ => { name := "Aprime" }
    fetchTrackInfo := fun _ _ => {}
    musicbrainz := none
    lastfm := none
    storagePublicUrl := none
    nowIso := "" }

/-- A service environment whose every HTTP attempt fails at transport level. -/
def tadbEnvDown : TadbEnv :=
  { request := fun _ _ _ => .error "connection refused"
    uploadArtistImage := fun _ _ => .ok none
    uploadAlbumImage := fun _ _ _ => .ok none
    mbReleaseDetails := none
    stripEditions := fun s => s }

def trackNum1000 : Track := { trackNumber := some 1000, title := "a" }
def trackNumNone : Track := { trackNumber := none, title := "b" }
def trackNum1 : Track := { trackNumber := some 1, title := "c" }
def trackAlbumA : Track := { albumArtist := "X", album := "A", title := "s" }
def trackAlbumB : Track := { albumArtist := "X", album := "B", title := "t" }
def trackAlbumX : Track := { albumArtist := "X", album := "AlbumX", title := "song" }
def trackKeyed : Track := { albumArtist := "X", album := "A", title := "x", s3Key := "X/A/x" }
def trackKeyless : Track := { albumArtist := "X", album := "A", title := "y" }

/-! ## Order lemmas for the Python string and track-sort orders -/

theorem charEq_of_toNat {a b : Char} (h : a.toNat = b.toNat) : a = b :=
  Char.ext (UInt32.ext h)

theorem strLtL_asymm : ∀ {a b : List Char}, strLtL a b = true → strLtL b a = false := by
  intro a
  induction a with
  | nil =>
    intro b h
    cases b with
    | nil => simp [strLtL] at h
    | cons y ys => simp [strLtL]
  | cons x xs ih =>
    intro b h
    cases b with
    | nil => simp [strLtL] at h
    | cons y ys =>
      simp only [strLtL] at h ⊢
      by_cases h1 : x.toNat < y.toNat
      · have h2 : ¬ y.toNat < x.toNat := by omega
        simp [h1, h2]
      · by_cases h2 : y.toNat < x.toNat
        · simp [h1, h2] at h
        · simp only [if_neg h1, if_neg h2] at h ⊢
          exact ih h

theorem strLtL_eq_of_not : ∀ {a b : List Char},
    strLtL a b = false → strLtL b a = false → a = b := by
  intro a
  induction a with
  | nil =>
    intro b h1 h2
    cases b with
    | nil => rfl
    | cons y ys => simp [strLtL] at h1
  | cons x xs ih =>
    intro b h1 h2
    cases b with
    | nil => simp [strLtL] at h2
    | cons y ys =>
      simp only [strLtL] at h1 h2
      by_cases hxy : x.toNat < y.toNat
      · simp [hxy] at h1
      · by_cases hyx : y.toNat < x.toNat
        · simp [hyx] at h2
        · simp only [if_neg hxy, if_neg hyx] at h1
          simp only [if_neg hyx, if_neg hxy] at h2
          have hx : x = y := charEq_of_toNat (by omega)
          rw [hx, ih h1 h2]

theorem strLtL_trans : ∀ {a b c : List Char},
    strLtL a b = true → strLtL b c = true → strLtL a c = true := by
  intro a
  induction a with
  | nil =>
    intro b c h1 h2
    cases b with
    | nil => simp [strLtL] at h1
    | cons y ys =>
      cases c with
      | nil => simp [strLtL] at h2
      | cons z zs => simp [strLtL]
  | cons x xs ih =>
    intro b c h1 h2
    cases b with
    | nil => simp [strLtL] at h1
    | cons y ys =>
      cases c with
      | nil => simp [strLtL] at h2
      | cons z zs =>
        simp only [strLtL] at h1 h2 ⊢
        by_cases hxy : x.toNat < y.toNat
        · by_cases hyz : y.toNat < z.toNat
          · simp [show x.toNat < z.toNat by omega]
          · by_cases hzy : z.toNat < y.toNat
            · simp [hyz, hzy] at h2
            · simp [show x.toNat < z.toNat by omega]
        · by_cases hyx : y.toNat < x.toNat
          · simp [hxy, hyx] at h1
          · simp only [if_neg hxy, if_neg hyx] at h1
            by_cases hyz : y.toNat < z.toNat
            · simp [show x.toNat < z.toNat by omega]
            · by_cases hzy : z.toNat < y.toNat
              · simp [hyz, hzy] at h2
              · simp only [if_neg hyz, if_neg hzy] at h2
                have hxz : ¬ x.toNat < z.toNat := by omega
                have hzx : ¬ z.toNat < x.toNat := by omega
                simp only [if_neg hxz, if_neg hzx]
                exact ih h1 h2

theorem strLeB_total (a b : String) : strLeB a b = true ∨ strLeB b a = true := by
  unfold strLeB
  by_cases h : strLtL b.data a.data = true
  · right
    simp [strLtL_asymm h]
  · left
    simp [Bool.eq_false_iff.mpr h]

theorem strLeB_trans {a b c : String} (h1 : strLeB a b = true)
    (h2 : strLeB b c = true) : strLeB a c = true := by
  unfold strLeB at h1 h2 ⊢
  simp only [Bool.not_eq_true', Bool.not_eq_false] at h1 h2 ⊢
  by_cases hab : strLtL a.data b.data = true
  · by_contra hca
    simp only [Bool.not_eq_false] at hca
    have := strLtL_trans hca hab
    rw [this] at h2
    cases h2
  · have : a.data = b.data := strLtL_eq_of_not (Bool.eq_false_iff.mpr hab) h1
    rw [this]
    exact h2

instance : IsTotal String strLe := ⟨fun a b => strLeB_total a b⟩

instance : IsTrans String strLe := ⟨fun _ _ _ h1 h2 => strLeB_trans h1 h2⟩

theorem trackLeB_iff {a b : Track} : trackLeB a b = true ↔
    (pyTrackNum a.trackNumber < pyTrackNum b.trackNumber ∨
     (pyTrackNum a.trackNumber = pyTrackNum b.trackNumber ∧
      strLeB a.title b.title = true)) := by
  unfold trackLeB trackSortKey
  dsimp only
  by_cases h1 : pyTrackNum a.trackNumber < pyTrackNum b.trackNumber
  · simp [h1]
  · by_cases h2 : pyTrackNum b.trackNumber < pyTrackNum a.trackNumber
    · simp only [if_neg h1, if_pos h2]
      constructor
      · intro h
        cases h
      · intro h
        rcases h with h | ⟨h, _⟩
        · exact absurd h h1
        · omega
    · simp only [if_neg h1, if_neg h2]
      constructor
      · intro h
        right
        exact ⟨by omega, h⟩
      · intro h
        rcases h with h | ⟨_, h⟩
        · exact absurd h h1
        · exact h

instance : IsTotal Track trackLe := by
  constructor
  intro a b
  unfold trackLe
  rw [trackLeB_iff, trackLeB_iff]
  rcases lt_trichotomy (pyTrackNum a.trackNumber) (pyTrackNum b.trackNumber) with h | h | h
  · exact Or.inl (Or.inl h)
  · rcases strLeB_total a.title b.title with ht | ht
    · exact Or.inl (Or.inr ⟨h, ht⟩)
    · exact Or.inr (Or.inr ⟨h.symm, ht⟩)
  · exact Or.inr (Or.inl h)

instance : IsTrans Track trackLe := by
  constructor
  intro a b c h1 h2
  unfold trackLe at h1 h2 ⊢
  rw [trackLeB_iff] at h1 h2 ⊢
  rcases h1 with h1 | ⟨h1, h1s⟩ <;> rcases h2 with h2 | ⟨h2, h2s⟩
  · exact Or.inl (by omega)
  · exact Or.inl (by omega)
  · exact Or.inl (by omega)
  · exact Or.inr ⟨by omega, strLeB_trans h1s h2s⟩

/-! ## Lemmas about the deduplication pass -/

/-- Branch normal form of one step of the deduplication loop. -/
theorem dedupGo_cons (seen : List String) (t : Track) (ts : List Track) :
    dedupGo seen (t :: ts) =
      if t.s3Key = "" then t :: dedupGo seen ts
      else if t.s3Key ∈ seen then dedupGo seen ts
      else t :: dedupGo (t.s3Key :: seen) ts := by
  by_cases hk : t.s3Key = "" <;> by_cases hc : t.s3Key ∈ seen <;>
    simp [dedupGo, hk, hc]

theorem dedupGo_sublist : ∀ (seen : List String) (l : List Track),
    (dedupGo seen l).Sublist l := by
  intro seen l
  induction l generalizing seen with
  | nil => simp [dedupGo]
  | cons t ts ih =>
    rw [dedupGo_cons]
    split_ifs with h1 h2
    · exact (ih seen).cons₂ t
    · exact (ih seen).cons t
    · exact (ih (t.s3Key :: seen)).cons₂ t

theorem dedupGo_filter_keyless : ∀ (seen : List String) (l : List Track),
    (dedupGo seen l).filter (fun t => t.s3Key == "") =
      l.filter (fun t => t.s3Key == "") := by
  intro seen l
  induction l generalizing seen with
  | nil => simp [dedupGo]
  | cons t ts ih =>
    rw [dedupGo_cons]
    split_ifs with h1 h2
    · simp [List.filter_cons, h1, ih seen]
    · simp [List.filter_cons, h1, ih seen]
    · simp [List.filter_cons, h1, ih (t.s3Key :: seen)]

theorem dedupGo_congr_seen : ∀ (l : List Track) (seen₁ seen₂ : List String),
    (∀ x, x ∈ seen₁ ↔ x ∈ seen₂) →
    dedupGo seen₁ l = dedupGo seen₂ l := by
  intro l
  induction l with
  | nil => intro _ _ _; rfl
  | cons t ts ih =>
    intro seen₁ seen₂ h
    rw [dedupGo_cons, dedupGo_cons]
    by_cases hk : t.s3Key = ""
    · simp only [if_pos hk]
      rw [ih seen₁ seen₂ h]
    · by_cases hc : t.s3Key ∈ seen₁
      · have hc2 : t.s3Key ∈ seen₂ := (h _).mp hc
        simp only [if_neg hk, if_pos hc, if_pos hc2]
        exact ih seen₁ seen₂ h
      · have hc2 : t.s3Key ∉ seen₂ := fun hx => hc ((h _).mpr hx)
        simp only [if_neg hk, if_neg hc, if_neg hc2]
        have harg : ∀ x, x ∈ t.s3Key :: seen₁ ↔ x ∈ t.s3Key :: seen₂ := by
          intro x
          simp only [List.mem_cons, h x]
        rw [ih _ _ harg]

theorem dedupGo_filter_of_seen : ∀ (l : List Track) (seen : List String) (k : String),
    k ≠ "" → k ∈ seen →
    dedupGo seen l = dedupGo seen (l.filter (fun u => u.s3Key ≠ k)) := by
  intro l
  induction l with
  | nil => intro _ _ _ _; rfl
  | cons t ts ih =>
    intro seen k hk hmem
    by_cases htk : t.s3Key = k
    · have hkey : ¬ t.s3Key = "" := by rw [htk]; exact hk
      have hc : t.s3Key ∈ seen := by rw [htk]; exact hmem
      rw [List.filter_cons, if_neg (by simp [htk]), dedupGo_cons,
        if_neg hkey, if_pos hc]
      exact ih seen k hk hmem
    · rw [List.filter_cons, if_pos (by simp [htk]), dedupGo_cons, dedupGo_cons]
      by_cases hk0 : t.s3Key = ""
      · simp only [if_pos hk0]
        rw [ih seen k hk hmem]
      · by_cases hc : t.s3Key ∈ seen
        · simp only [if_neg hk0, if_pos hc]
          exact ih seen k hk hmem
        · simp only [if_neg hk0, if_neg hc]
          rw [ih (t.s3Key :: seen) k hk (List.mem_cons_of_mem _ hmem)]

theorem dedupGo_cons_of_absent : ∀ (l : List Track) (seen : List String) (k : String),
    (∀ t ∈ l, t.s3Key ≠ k) →
    dedupGo (k :: seen) l = dedupGo seen l := by
  intro l
  induction l with
  | nil => intro _ _ _; rfl
  | cons t ts ih =>
    intro seen k habs
    have htk : t.s3Key ≠ k := habs t (List.mem_cons_self t ts)
    have htail : ∀ u ∈ ts, u.s3Key ≠ k := fun u hu => habs u (List.mem_cons_of_mem t hu)
    rw [dedupGo_cons, dedupGo_cons]
    by_cases hk0 : t.s3Key = ""
    · simp only [if_pos hk0]
      rw [ih seen k htail]
    · by_cases hc : t.s3Key ∈ seen
      · have hc2 : t.s3Key ∈ k :: seen := List.mem_cons_of_mem _ hc
        simp only [if_neg hk0, if_pos hc, if_pos hc2]
        exact ih seen k htail
      · have hc2 : t.s3Key ∉ k :: seen := by
          simp only [List.mem_cons]
          push_neg
          exact ⟨htk, hc⟩
        simp only [if_neg hk0, if_neg hc, if_neg hc2]
        congr 1
        have hswap : ∀ x, x ∈ t.s3Key :: k :: seen ↔ x ∈ k :: t.s3Key :: seen := by
          intro x
          simp only [List.mem_cons]
          tauto
        rw [dedupGo_congr_seen ts _ _ hswap, ih _ k htail]

theorem dedup_eq_spec_aux : ∀ (n : Nat) (l : List Track), l.length ≤ n →
    dedupGo [] l = specKeepFirst l := by
  intro n
  induction n with
  | zero =>
    intro l h
    have hl : l = [] := List.eq_nil_of_length_eq_zero (Nat.le_zero.mp h)
    subst hl
    simp [dedupGo, specKeepFirst]
  | succ n ih =>
    intro l h
    cases l with
    | nil => simp [dedupGo, specKeepFirst]
    | cons t ts =>
      rw [dedupGo_cons]
      by_cases hk : t.s3Key = ""
      · rw [if_pos hk, specKeepFirst, if_pos hk]
        rw [ih ts (by simpa using Nat.le_of_succ_le_succ h)]
      · rw [if_neg hk, if_neg (by simp), specKeepFirst, if_neg hk]
        have h1 : dedupGo [t.s3Key] ts =
            dedupGo [t.s3Key] (ts.filter (fun u => u.s3Key ≠ t.s3Key)) :=
          dedupGo_filter_of_seen ts [t.s3Key] t.s3Key hk (by simp)
        have h2 : dedupGo [t.s3Key] (ts.filter (fun u => u.s3Key ≠ t.s3Key)) =
            dedupGo [] (ts.filter (fun u => u.s3Key ≠ t.s3Key)) := by
          apply dedupGo_cons_of_absent
          intro u hu
          have := (List.mem_filter.mp hu).2
          simpa using this
        rw [h1, h2, ih _ (by
          have hle := List.length_filter_le (fun u => u.s3Key ≠ t.s3Key) ts
          have hlen : ts.length ≤ n := by simpa using Nat.le_of_succ_le_succ h
          omega)]

/-- The loop of lines 205-214 computes exactly the keep-first-occurrence
filter described by the spec. -/
theorem dedupTracks_eq_specKeepFirst (l : List Track) :
    dedupTracks l = specKeepFirst l :=
  dedup_eq_spec_aux l.length l (Nat.le_refl _)

theorem dedupGo_keys_nodup : ∀ (l : List Track) (seen : List String),
    ((dedupGo seen l).filterMap trackKey).Nodup ∧
    ∀ k ∈ (dedupGo seen l).filterMap trackKey, k ∉ seen := by
  intro l
  induction l with
  | nil => intro seen; simp [dedupGo]
  | cons t ts ih =>
    intro seen
    rw [dedupGo_cons]
    split_ifs with h1 h2
    · have hkey : trackKey t = none := by simp [trackKey, h1]
      simp only [List.filterMap_cons, hkey]
      exact ih seen
    · exact ih seen
    · have hkey : trackKey t = some t.s3Key := by simp [trackKey, h1]
      simp only [List.filterMap_cons, hkey]
      constructor
      · rw [List.nodup_cons]
        refine ⟨fun hmem => ?_, (ih (t.s3Key :: seen)).1⟩
        have := (ih (t.s3Key :: seen)).2 t.s3Key hmem
        exact this (List.mem_cons_self _ _)
      · intro k hk
        rcases List.mem_cons.mp hk with hk | hk
        · rw [hk]; exact h2
        · have := (ih (t.s3Key :: seen)).2 k hk
          exact fun hs => this (List.mem_cons_of_mem _ hs)

theorem dedupGo_id_of_nodup : ∀ (l : List Track) (seen : List String),
    (l.filterMap trackKey).Nodup →
    (∀ t ∈ l, t.s3Key ≠ "" → t.s3Key ∉ seen) →
    dedupGo seen l = l := by
  intro l
  induction l with
  | nil => intro _ _ _; rfl
  | cons t ts ih =>
    intro seen hnd habs
    rw [dedupGo_cons]
    by_cases hk : t.s3Key = ""
    · rw [if_pos hk]
      have hkey : trackKey t = none := by simp [trackKey, hk]
      simp only [List.filterMap_cons, hkey] at hnd
      rw [ih seen hnd (fun u hu => habs u (List.mem_cons_of_mem _ hu))]
    · have hc : t.s3Key ∉ seen := habs t (List.mem_cons_self _ _) hk
      rw [if_neg hk, if_neg hc]
      have hkey : trackKey t = some t.s3Key := by simp [trackKey, hk]
      simp only [List.filterMap_cons, hkey, List.nodup_cons] at hnd
      congr 1
      apply ih (t.s3Key :: seen) hnd.2
      intro u hu hu0
      have humem : u.s3Key ∈ ts.filterMap trackKey := by
        apply List.mem_filterMap.mpr
        exact ⟨u, hu, by simp [trackKey, hu0]⟩
      simp only [List.mem_cons]
      push_neg
      constructor
      · intro heq
        exact hnd.1 (heq ▸ humem)
      · exact habs u (List.mem_cons_of_mem _ hu) hu0

theorem dedupGo_mem_of_first : ∀ (l : List Track) (seen : List String)
    (i : Nat) (hi : i < l.length),
    ((l.get ⟨i, hi⟩).s3Key = "" ∨
     ((l.get ⟨i, hi⟩).s3Key ∉ seen ∧
      ∀ j, (hj : j < l.length) → j < i →
        (l.get ⟨j, hj⟩).s3Key ≠ (l.get ⟨i, hi⟩).s3Key)) →
    l.get ⟨i, hi⟩ ∈ dedupGo seen l := by
  intro l
  induction l with
  | nil => intro seen i hi; exact absurd hi (by simp)
  | cons t ts ih =>
    intro seen i hi hcond
    rw [dedupGo_cons]
    cases i with
    | zero =>
      have hget0 : (t :: ts).get ⟨0, hi⟩ = t := rfl
      rw [hget0] at hcond ⊢
      split_ifs with h1 h2
      · exact List.mem_cons_self _ _
      · rcases hcond with hcond | hcond
        · exact absurd hcond h1
        · exact absurd h2 hcond.1
      · exact List.mem_cons_self _ _
    | succ i' =>
      have hi' : i' < ts.length := by simpa using Nat.lt_of_succ_lt_succ hi
      have hget : (t :: ts).get ⟨i' + 1, hi⟩ = ts.get ⟨i', hi'⟩ := rfl
      rw [hget] at hcond ⊢
      split_ifs with h1 h2
      · apply List.mem_cons_of_mem
        apply ih seen i' hi'
        rcases hcond with hcond | hcond
        · exact Or.inl hcond
        · refine Or.inr ⟨hcond.1, fun j hj hji => ?_⟩
          have := hcond.2 (j + 1) (by simpa using Nat.succ_lt_succ hj)
            (Nat.succ_lt_succ hji)
          simpa using this
      · apply ih seen i' hi'
        rcases hcond with hcond | hcond
        · exact Or.inl hcond
        · refine Or.inr ⟨hcond.1, fun j hj hji => ?_⟩
          have := hcond.2 (j + 1) (by simpa using Nat.succ_lt_succ hj)
            (Nat.succ_lt_succ hji)
          simpa using this
      · apply List.mem_cons_of_mem
        apply ih (t.s3Key :: seen) i' hi'
        rcases hcond with hcond | hcond
        · exact Or.inl hcond
        · refine Or.inr ⟨?_, fun j hj hji => ?_⟩
          · simp only [List.mem_cons]
            push_neg
            refine ⟨?_, hcond.1⟩
            have h0 := hcond.2 0 (by simp) (Nat.succ_pos _)
            simpa using fun heq => h0 (by simpa using heq.symm)
          · have := hcond.2 (j + 1) (by simpa using Nat.succ_lt_succ hj)
              (Nat.succ_lt_succ hji)
            simpa using this

theorem buildAlbum_tracks (env : Env) (artistName albumName : String)
    (tracks : List Track) (artistGenre : String) :
    (buildAlbum env artistName albumName tracks artistGenre).tracks =
      dedupTracks (buildAlbumEnriched env artistName albumName tracks artistGenre) := rfl

/-- C1: after the deduplication pass of `_build_album`, the storage keys of
the resulting album's tracks are pairwise distinct, and the pass keeps the
first track seen for each storage key, dropping every later track whose key
equals an already-kept track's key — for every input track list and every
service environment (including any in which two local folders canonicalize to
one album). -/
theorem C1_album_storage_keys_distinct (env : Env) (artistName albumName : String)
    (tracks : List Track) (artistGenre : String) :
    (((buildAlbum env artistName albumName tracks artistGenre).tracks).filterMap
      trackKey).Nodup ∧
    (buildAlbum env artistName albumName tracks artistGenre).tracks =
      specKeepFirst (buildAlbumEnriched env artistName albumName tracks artistGenre) := by
  rw [buildAlbum_tracks]
  constructor
  · exact (dedupGo_keys_nodup _ []).1
  · exact dedupTracks_eq_specKeepFirst _

/-- C9: the deduplication pass keeps every keyless enriched track, in
enriched order (the keyless sublist of the output equals that of the input),
the output is a sublist of the enriched list, and any track that is keyless
or whose key differs from every earlier enriched track's key is kept — so
only later duplicates of an already-kept storage key are ever dropped. -/
theorem C9_keyless_tracks_kept (env : Env) (artistName albumName : String)
    (tracks : List Track) (artistGenre : String) :
    ((buildAlbum env artistName albumName tracks artistGenre).tracks).filter
        (fun t => t.s3Key == "") =
      (buildAlbumEnriched env artistName albumName tracks artistGenre).filter
        (fun t => t.s3Key == "") ∧
    ((buildAlbum env artistName albumName tracks artistGenre).tracks).Sublist
      (buildAlbumEnriched env artistName albumName tracks artistGenre) ∧
    (∀ i, (hi : i < (buildAlbumEnriched env artistName albumName tracks
        artistGenre).length) →
      (((buildAlbumEnriched env artistName albumName tracks artistGenre).get
          ⟨i, hi⟩).s3Key = "" ∨
       ∀ j, (hj : j < (buildAlbumEnriched env artistName albumName tracks
          artistGenre).length) → j < i →
         ((buildAlbumEnriched env artistName albumName tracks artistGenre).get
            ⟨j, hj⟩).s3Key ≠
           ((buildAlbumEnriched env artistName albumName tracks artistGenre).get
            ⟨i, hi⟩).s3Key) →
      (buildAlbumEnriched env artistName albumName tracks artistGenre).get ⟨i, hi⟩ ∈
        (buildAlbum env artistName albumName tracks artistGenre).tracks) := by
  rw [buildAlbum_tracks]
  refine ⟨dedupGo_filter_keyless [] _, dedupGo_sublist [] _, ?_⟩
  intro i hi hcond
  apply dedupGo_mem_of_first
  rcases hcond with hcond | hcond
  · exact Or.inl hcond
  · exact Or.inr ⟨by simp, hcond⟩

/-- Witness for C9: in a concrete two-track album with one keyed and one
keyless track, the keyless enriched track (index 1) is kept. -/
theorem C9_keyless_tracks_kept_witness :
    (buildAlbumEnriched envTrivial "X" "A" [trackKeyed, trackKeyless] "").get
        ⟨1, by decide⟩ ∈
      (buildAlbum envTrivial "X" "A" [trackKeyed, trackKeyless] "").tracks :=
  (C9_keyless_tracks_kept envTrivial "X" "A" [trackKeyed, trackKeyless] "").2.2
    1 (by decide) (Or.inl (by decide))

/-- C3 counterexample: with a track numbered 1000 and an unnumbered track,
the unnumbered track (sentinel 999) sorts *before* the numbered one, so the
claim "every track whose track_number is missing sorts after all tracks that
have a track number" fails as stated. -/
theorem C3_missing_after_numbered_counterexample :
    sortTracks [trackNum1000, trackNumNone] = [trackNumNone, trackNum1000] ∧
    trackNumNone.trackNumber = none ∧ trackNum1000.trackNumber = some 1000 := by
  refine ⟨by decide, rfl, rfl⟩

/-- C3 (amended): `_build_album` sorts tracks by the Python tuple key
`(track_number or 999, title)` — a permutation, sorted under that
lexicographic order — and every track whose track number is missing sorts
after all tracks whose track number `n` satisfies `n ≠ 0` and `n < 999`
(missing and zero numbers are both mapped to the sentinel 999, so numbers of
999 or more, or 0, need not precede unnumbered tracks). -/
theorem C3_sorted_by_number_then_title (l : List Track) :
    (sortTracks l).Perm l ∧
    List.Sorted trackLe (sortTracks l) ∧
    (∀ i j n, (hi : i < (sortTracks l).length) → (hj : j < (sortTracks l).length) →
      ((sortTracks l).get ⟨i, hi⟩).trackNumber = none →
      ((sortTracks l).get ⟨j, hj⟩).trackNumber = some n →
      n ≠ 0 → n < 999 → j < i) := by
  refine ⟨List.perm_insertionSort trackLe l, List.sorted_insertionSort trackLe l, ?_⟩
  intro i j n hi hj hnone hsome hn0 hn999
  rcases lt_trichotomy i j with hij | hij | hij
  · exfalso
    have hsorted : List.Sorted trackLe (sortTracks l) :=
      List.sorted_insertionSort trackLe l
    have hrel : trackLe ((sortTracks l).get ⟨i, hi⟩) ((sortTracks l).get ⟨j, hj⟩) :=
      hsorted.rel_get_of_lt (a := ⟨i, hi⟩) (b := ⟨j, hj⟩) (by exact hij)
    have hrel2 := trackLeB_iff.mp hrel
    rw [hnone, hsome] at hrel2
    have h999 : pyTrackNum none = 999 := rfl
    have hn : pyTrackNum (some n) = n := by simp [pyTrackNum, hn0]
    rw [h999, hn] at hrel2
    rcases hrel2 with hrel2 | ⟨hrel2, _⟩ <;> omega
  · exfalso
    subst hij
    rw [hnone] at hsome
    cases hsome
  · exact hij

/-- Witness for C3: a one-numbered, one-unnumbered list where the numbered
track (number 1) ends up at index 0, before the unnumbered track at index 1. -/
theorem C3_sorted_by_number_then_title_witness :
    sortTracks [trackNumNone, trackNum1] = [trackNum1, trackNumNone] ∧ (0 : Nat) < 1 :=
  ⟨by decide,
   (C3_sorted_by_number_then_title [trackNumNone, trackNum1]).2.2 1 0 1
     (by decide) (by decide) (by decide) (by decide) (by decide) (by decide)⟩

/-- Albums are built in sorted order of their *local* grouping keys, but the
node carries the corrected display name; when no renaming source is
available, the display name is the local key. -/
theorem buildAlbum_name_no_sources (env : Env) (hmb : env.musicbrainz = none)
    (hlf : env.lastfm = none) (hai : ∀ a b, (env.fetchAlbumInfo a b).name = "")
    (hti : ∀ a t, (env.fetchTrackInfo a t).album = "") (a b : String)
    (ts : List Track) (g : String) : (buildAlbum env a b ts g).name = b := by
  have hinfo : buildAlbumMergedInfo env a b = env.fetchAlbumInfo a b := by
    simp [buildAlbumMergedInfo, hlf]
  show (buildAlbumPre env a b ts g).name = b
  simp only [buildAlbumPre, buildAlbumRd, resolveAlbum, hmb, hinfo, hai, hti]
  simp

/-- C4 counterexample: with two local albums `"A"` and `"B"` under one
artist, where the service corrects `"A"` to `"Z"`, the album nodes carry the
names `["Z", "B"]`, which is not sorted — so "album nodes sorted by name"
fails as stated. -/
theorem C4_albums_sorted_counterexample :
    ((build envRename [trackAlbumA, trackAlbumB]).artists.map
      (fun ar => ar.albums.map Album.name)) = [["Z", "B"]] ∧
    ¬ List.Sorted strLe ["Z", "B"] := by
  constructor
  · decide
  · decide

/-- C4 (amended): `build` returns the pre-dedup input track count as
`total_tracks`, artist nodes sorted by name, and album nodes in sorted order
of the *local* album names they were grouped under; the album nodes' display
names themselves are sorted whenever no canonicalization source can rename an
album (no MusicBrainz or Last.fm service, and empty free-text album-info
names and track-search album fields) — with renaming they can be out of
order. -/
theorem C4_totals_and_sort_order (env : Env) (l : List Track) :
    (build env l).totalTracks = l.length ∧
    List.Sorted strLe (((build env l).artists).map Artist.name) ∧
    (env.musicbrainz = none → env.lastfm = none →
     (∀ a b, (env.fetchAlbumInfo a b).name = "") →
     (∀ a t, (env.fetchTrackInfo a t).album = "") →
     ∀ ar ∈ (build env l).artists,
       List.Sorted strLe (ar.albums.map Album.name)) := by
  refine ⟨rfl, ?_, ?_⟩
  · have hmap : ((build env l).artists).map Artist.name = artistKeys l := by
      simp only [build]
      rw [List.map_map]
      have hcomp : Artist.name ∘ buildArtist env l = id := funext (fun a => rfl)
      rw [hcomp, List.map_id]
    rw [hmap]
    exact List.sorted_insertionSort strLe _
  · intro hmb hlf hai hti ar har
    simp only [build] at har
    rcases List.mem_map.mp har with ⟨a, _, rfl⟩
    have halb : (buildArtist env l a).albums.map Album.name = albumKeysFor l a := by
      simp only [buildArtist]
      rw [List.map_map]
      have : (albumKeysFor l a).map
          (Album.name ∘ fun b => buildAlbum env a b (bucket l a b)
            (env.fetchArtistInfo a).genre) =
          (albumKeysFor l a).map id := by
        apply List.map_congr_left
        intro b _
        exact buildAlbum_name_no_sources env hmb hlf hai hti a b _ _
      rw [this, List.map_id]
    rw [halb]
    exact List.sorted_insertionSort strLe _

/-- Witness for C4: in an environment with no renaming source, the single
artist's album names are sorted. -/
theorem C4_totals_and_sort_order_witness :
    List.Sorted strLe ((buildArtist envTrivial [trackAlbumA, trackAlbumB] "X").albums.map
      Album.name) :=
  (C4_totals_and_sort_order envTrivial [trackAlbumA, trackAlbumB]).2.2 rfl rfl
    (fun _ _ => rfl) (fun _ _ => rfl)
    (buildArtist envTrivial [trackAlbumA, trackAlbumB] "X") (by decide)

/-! ## Counting lemmas for the grouping partition -/

theorem length_filter_add_length_filter_not {α : Type} (p : α → Bool) (l : List α) :
    (l.filter p).length + (l.filter (fun a => !(p a))).length = l.length := by
  induction l with
  | nil => rfl
  | cons x xs ih =>
    by_cases h : p x
    · rw [List.filter_cons, List.filter_cons, if_pos h, if_neg (by simp [h])]
      simp only [List.length_cons]
      omega
    · rw [List.filter_cons, List.filter_cons, if_neg h, if_pos (by simp [Bool.eq_false_iff.mpr h])]
      simp only [List.length_cons]
      omega

theorem sum_length_filter_eq {α : Type} (key : α → String) :
    ∀ (keys : List String) (l : List α), keys.Nodup →
      (∀ t ∈ l, key t ∈ keys) →
      (keys.map (fun a => (l.filter (fun t => key t == a)).length)).sum = l.length := by
  intro keys
  induction keys with
  | nil =>
    intro l _ hcov
    have hl : l = [] := by
      cases l with
      | nil => rfl
      | cons x xs => exact absurd (hcov x (List.mem_cons_self _ _)) (List.not_mem_nil _)
    subst hl
    rfl
  | cons a rest ih =>
    intro l hnd hcov
    simp only [List.map_cons, List.sum_cons]
    have hka : a ∉ rest := (List.nodup_cons.mp hnd).1
    have hstep : ∀ k ∈ rest,
        l.filter (fun t => key t == k) =
        (l.filter (fun t => !(key t == a))).filter (fun t => key t == k) := by
      intro k hk
      rw [List.filter_filter]
      apply List.filter_congr
      intro t _
      by_cases h : key t = k
      · have hne : ¬ k = a := fun heq => hka (heq ▸ hk)
        simp [h, hne]
      · simp [h]
    have hrestmap : rest.map (fun k => (l.filter (fun t => key t == k)).length)
        = rest.map (fun k =>
            ((l.filter (fun t => !(key t == a))).filter (fun t => key t == k)).length) := by
      apply List.map_congr_left
      intro k hk
      rw [hstep k hk]
    rw [hrestmap,
      ih (l.filter (fun t => !(key t == a))) (List.nodup_cons.mp hnd).2 ?_]
    · exact length_filter_add_length_filter_not (fun t => key t == a) l
    · intro t ht
      rcases List.mem_filter.mp ht with ⟨htl, hta⟩
      rcases List.mem_cons.mp (hcov t htl) with h | h
      · exfalso
        simp [h] at hta
      · exact h

theorem artistKeys_nodup (l : List Track) : (artistKeys l).Nodup :=
  ((List.perm_insertionSort strLe _).nodup_iff).mpr (List.nodup_dedup _)

theorem artistKeys_cover (l : List Track) : ∀ t ∈ l, artistKeyOf t ∈ artistKeys l := by
  intro t ht
  unfold artistKeys sortStrings
  rw [(List.perm_insertionSort strLe _).mem_iff, List.mem_dedup]
  exact List.mem_map_of_mem artistKeyOf ht

theorem albumKeysFor_nodup (l : List Track) (a : String) : (albumKeysFor l a).Nodup :=
  ((List.perm_insertionSort strLe _).nodup_iff).mpr (List.nodup_dedup _)

theorem albumKeysFor_cover (l : List Track) (a : String) :
    ∀ t ∈ l.filter (fun t => artistKeyOf t == a), albumKeyOf t ∈ albumKeysFor l a := by
  intro t ht
  unfold albumKeysFor sortStrings
  rw [(List.perm_insertionSort strLe _).mem_iff, List.mem_dedup]
  exact List.mem_map_of_mem albumKeyOf ht

theorem buildAlbumEnriched_length (env : Env) (a b : String) (ts : List Track)
    (g : String) : (buildAlbumEnriched env a b ts g).length = ts.length := by
  simp only [buildAlbumEnriched, buildAlbumPre]
  rw [List.length_map]
  exact (List.perm_insertionSort trackLe ts).length_eq

theorem catalogTrackSum_build (env : Env) (l : List Track) :
    catalogTrackSum (build env l) =
      ((artistKeys l).map (fun a => ((albumKeysFor l a).map (fun b =>
        (dedupTracks (buildAlbumEnriched env a b (bucket l a b)
          (env.fetchArtistInfo a).genre)).length)).sum)).sum := by
  simp only [catalogTrackSum, build, List.map_map]
  congr 1
  apply List.map_congr_left
  intro a _
  simp only [Function.comp]
  simp only [buildArtist, List.map_map]
  congr 1

/-- C10: the total number of tracks stored across all albums of the built
catalog is at most `total_tracks` (the pre-dedup input count), with equality
whenever no album's enriched track list carries two tracks with the same
storage key. -/
theorem C10_track_sum_le_total (env : Env) (l : List Track) :
    catalogTrackSum (build env l) ≤ (build env l).totalTracks ∧
    ((∀ a ∈ artistKeys l, ∀ b ∈ albumKeysFor l a,
        ((buildAlbumEnriched env a b (bucket l a b)
          (env.fetchArtistInfo a).genre).filterMap trackKey).Nodup) →
      catalogTrackSum (build env l) = (build env l).totalTracks) := by
  have htot : (build env l).totalTracks = l.length := rfl
  have hpart : ((artistKeys l).map (fun a => ((albumKeysFor l a).map (fun b =>
      (bucket l a b).length)).sum)).sum = l.length := by
    have hinner : ∀ a, ((albumKeysFor l a).map (fun b =>
        (bucket l a b).length)).sum = (l.filter (fun t => artistKeyOf t == a)).length := by
      intro a
      exact sum_length_filter_eq albumKeyOf (albumKeysFor l a)
        (l.filter (fun t => artistKeyOf t == a)) (albumKeysFor_nodup l a)
        (albumKeysFor_cover l a)
    calc ((artistKeys l).map (fun a => ((albumKeysFor l a).map (fun b =>
          (bucket l a b).length)).sum)).sum
        = ((artistKeys l).map (fun a =>
            (l.filter (fun t => artistKeyOf t == a)).length)).sum := by
          congr 1
          exact List.map_congr_left (fun a _ => hinner a)
      _ = l.length := sum_length_filter_eq artistKeyOf (artistKeys l) l
            (artistKeys_nodup l) (artistKeys_cover l)
  constructor
  · rw [catalogTrackSum_build, htot, ← hpart]
    apply List.sum_le_sum
    intro a _
    apply List.sum_le_sum
    intro b _
    calc (dedupTracks (buildAlbumEnriched env a b (bucket l a b)
          (env.fetchArtistInfo a).genre)).length
        ≤ (buildAlbumEnriched env a b (bucket l a b)
            (env.fetchArtistInfo a).genre).length :=
          (dedupGo_sublist [] _).length_le
      _ = (bucket l a b).length := buildAlbumEnriched_length env a b _ _
  · intro hnd
    rw [catalogTrackSum_build, htot, ← hpart]
    congr 1
    apply List.map_congr_left
    intro a ha
    congr 1
    apply List.map_congr_left
    intro b hb
    rw [show dedupTracks (buildAlbumEnriched env a b (bucket l a b)
        (env.fetchArtistInfo a).genre) =
        buildAlbumEnriched env a b (bucket l a b) (env.fetchArtistInfo a).genre from
      dedupGo_id_of_nodup _ [] (hnd a ha b hb) (fun _ _ _ => List.not_mem_nil _)]
    exact buildAlbumEnriched_length env a b _ _

/-- Witness for C10: a one-track catalog with a keyed track reaches the total
exactly. -/
theorem C10_track_sum_le_total_witness :
    catalogTrackSum (build envTrivial [trackKeyed]) =
      (build envTrivial [trackKeyed]).totalTracks :=
  (C10_track_sum_le_total envTrivial [trackKeyed]).2 (by decide)

/-! ## The album-name resolution of lines 132-157 -/

theorem buildAlbum_name_eq (env : Env) (a b : String) (ts : List Track) (g : String) :
    (buildAlbum env a b ts g).name =
      (resolveAlbum env a b (sortTracks ts) (buildAlbumMergedInfo env a b)
        (buildAlbumImg2 env a b (sortTracks ts)) (buildAlbumRd env a b)).1 := rfl

theorem buildAlbum_wiki_eq (env : Env) (a b : String) (ts : List Track) (g : String) :
    (buildAlbum env a b ts g).wiki =
      (resolveAlbum env a b (sortTracks ts) (buildAlbumMergedInfo env a b)
        (buildAlbumImg2 env a b (sortTracks ts)) (buildAlbumRd env a b)).2.1.wiki := rfl

theorem resolveAlbum_fst_of_name (env : Env) (a b : String) (sorted : List Track)
    (info : AlbumInfo) (img : String) (rd : Option ReleaseDetails)
    (h : info.name ≠ "") :
    (resolveAlbum env a b sorted info img rd).1 = info.name := by
  simp [resolveAlbum, h]

theorem resolveAlbum_fst_of_track (env : Env) (a b : String) (sorted : List Track)
    (info : AlbumInfo) (img : String) (rd : Option ReleaseDetails)
    (h0 : info.name = "") (hft : firstTrackTitle sorted ≠ "")
    (hta : (env.fetchTrackInfo a (firstTrackTitle sorted)).album ≠ "")
    (htb : (env.fetchTrackInfo a (firstTrackTitle sorted)).album ≠ b) :
    (resolveAlbum env a b sorted info img rd).1 =
      (env.fetchTrackInfo a (firstTrackTitle sorted)).album := by
  simp only [resolveAlbum]
  simp [h0, hft, hta]
  split_ifs <;> simp_all

theorem resolveAlbum_fst_fallback (env : Env) (a b : String) (sorted : List Track)
    (info : AlbumInfo) (img : String) (rd : Option ReleaseDetails)
    (h0 : info.name = "")
    (hcase : firstTrackTitle sorted = "" ∨
      (env.fetchTrackInfo a (firstTrackTitle sorted)).album = "" ∨
      (env.fetchTrackInfo a (firstTrackTitle sorted)).album = b) :
    (resolveAlbum env a b sorted info img rd).1 =
      (match rd with
       | some r => if r.title ≠ "" then r.title else b
       | none => b) := by
  simp only [resolveAlbum]
  rcases hcase with hc | hc | hc <;>
    rcases rd with _ | r <;>
      simp [h0, hc] <;> split_ifs <;> simp_all

theorem resolveAlbum_wiki_of_track (env : Env) (a b : String) (sorted : List Track)
    (info : AlbumInfo) (img : String) (rd : Option ReleaseDetails)
    (h0 : info.name = "") (hft : firstTrackTitle sorted ≠ "")
    (hta : (env.fetchTrackInfo a (firstTrackTitle sorted)).album ≠ "")
    (hci : (env.fetchAlbumInfo a
        (env.fetchTrackInfo a (firstTrackTitle sorted)).album).wiki ≠ "" ∨
      (env.fetchAlbumInfo a
        (env.fetchTrackInfo a (firstTrackTitle sorted)).album).imageUrl ≠ "") :
    (resolveAlbum env a b sorted info img rd).2.1 =
      env.fetchAlbumInfo a (env.fetchTrackInfo a (firstTrackTitle sorted)).album := by
  simp only [resolveAlbum]
  rcases rd with _ | r <;> simp [h0, hft, hta] <;> split_ifs <;> simp_all

theorem enrichTrack_album (env : Env) (aN bN d : String) (info : AlbumInfo)
    (g img : String) (t : Track) :
    (enrichTrack env aN bN d info g img t).album = d := by
  rcases hs : env.storagePublicUrl with _ | pub <;>
    simp only [enrichTrack, hs] <;> split_ifs <;> rfl

theorem mem_buildAlbumEnriched_album (env : Env) (a b : String) (ts : List Track)
    (g : String) : ∀ t ∈ buildAlbumEnriched env a b ts g,
      t.album = (buildAlbum env a b ts g).name := by
  intro t ht
  simp only [buildAlbumEnriched, buildAlbumPre] at ht
  rcases List.mem_map.mp ht with ⟨u, _, rfl⟩
  rw [enrichTrack_album]
  rfl

/-- C2 counterexample: the free-text album search fails entirely
(`buildAlbumMergedInfo` has no name), the track-level search on the first
track's title returns exactly the local album name `"AlbumX"`, yet the
produced album is named by the relational client's title `"Other"` — the
track-search result does not determine the name, contradicting the claimed
strict precedence. -/
theorem C2_album_name_precedence_counterexample :
    (buildAlbumMergedInfo envTrackEqual "X" "AlbumX").name = "" ∧
    firstTrackTitle (sortTracks [trackAlbumX]) = "song" ∧
    (envTrackEqual.fetchTrackInfo "X" "song").album = "AlbumX" ∧
    (buildAlbum envTrackEqual "X" "AlbumX" [trackAlbumX] "").name = "Other" ∧
    "Other" ≠ "AlbumX" := by
  refine ⟨rfl, by decide, rfl, by decide, by decide⟩

/-- C2 (amended): the album display name is resolved as follows — (a) the
album-info name after the Last.fm fallback merge, when present; else (b) the
album field of the track-level search on the first sorted track's title, when
that field is non-empty *and differs from the local album name*; else (c) the
relational client's release title when present (this branch also fires when
the track search returns exactly the local name, because the code detects
renaming by comparing the resolved name against the local one); else (d) the
local album name.  In branch (b), when the second album-info fetch under the
corrected name has a wiki or an image, it replaces the album info, so the
album's wiki comes from that fetch.  Every track of the produced album
carries the resolved name in its `album` field. -/
theorem C2_album_name_precedence (env : Env) (artistName albumName : String)
    (tracks : List Track) (artistGenre : String) :
    ((buildAlbumMergedInfo env artistName albumName).name ≠ "" →
      (buildAlbum env artistName albumName tracks artistGenre).name =
        (buildAlbumMergedInfo env artistName albumName).name) ∧
    ((buildAlbumMergedInfo env artistName albumName).name = "" →
      firstTrackTitle (sortTracks tracks) ≠ "" →
      (env.fetchTrackInfo artistName (firstTrackTitle (sortTracks tracks))).album ≠ "" →
      (env.fetchTrackInfo artistName (firstTrackTitle (sortTracks tracks))).album ≠
        albumName →
      (buildAlbum env artistName albumName tracks artistGenre).name =
        (env.fetchTrackInfo artistName (firstTrackTitle (sortTracks tracks))).album) ∧
    ((buildAlbumMergedInfo env artistName albumName).name = "" →
      (firstTrackTitle (sortTracks tracks) = "" ∨
       (env.fetchTrackInfo artistName (firstTrackTitle (sortTracks tracks))).album = "" ∨
       (env.fetchTrackInfo artistName (firstTrackTitle (sortTracks tracks))).album =
         albumName) →
      (buildAlbum env artistName albumName tracks artistGenre).name =
        (match env.musicbrainz with
         | some m =>
           if (m.getReleaseDetails artistName albumName).title ≠ "" then
             (m.getReleaseDetails artistName albumName).title
           else albumName
         | none => albumName)) ∧
    ((buildAlbumMergedInfo env artistName albumName).name = "" →
      firstTrackTitle (sortTracks tracks) ≠ "" →
      (env.fetchTrackInfo artistName (firstTrackTitle (sortTracks tracks))).album ≠ "" →
      ((env.fetchAlbumInfo artistName
          (env.fetchTrackInfo artistName
            (firstTrackTitle (sortTracks tracks))).album).wiki ≠ "" ∨
       (env.fetchAlbumInfo artistName
          (env.fetchTrackInfo artistName
            (firstTrackTitle (sortTracks tracks))).album).imageUrl ≠ "") →
      (buildAlbum env artistName albumName tracks artistGenre).wiki =
        (env.fetchAlbumInfo artistName
          (env.fetchTrackInfo artistName
            (firstTrackTitle (sortTracks tracks))).album).wiki) ∧
    (∀ t ∈ (buildAlbum env artistName albumName tracks artistGenre).tracks,
      t.album = (buildAlbum env artistName albumName tracks artistGenre).name) := by
  refine ⟨?_, ?_, ?_, ?_, ?_⟩
  · intro h
    rw [buildAlbum_name_eq]
    exact resolveAlbum_fst_of_name env artistName albumName _ _ _ _ h
  · intro h0 hft hta htb
    rw [buildAlbum_name_eq]
    exact resolveAlbum_fst_of_track env artistName albumName _ _ _ _ h0 hft hta htb
  · intro h0 hcase
    rw [buildAlbum_name_eq,
      resolveAlbum_fst_fallback env artistName albumName _ _ _ _ h0 hcase]
    rcases hmb : env.musicbrainz with _ | m <;> simp [buildAlbumRd, hmb]
  · intro h0 hft hta hci
    rw [buildAlbum_wiki_eq,
      resolveAlbum_wiki_of_track env artistName albumName _ _ _ _ h0 hft hta hci]
  · intro t ht
    rw [buildAlbum_tracks] at ht
    exact mem_buildAlbumEnriched_album env artistName albumName tracks artistGenre t
      ((dedupGo_sublist [] _).subset ht)

/-- Witness for C2: with a provider that names every album `"Aprime"`, the
produced album is named `"Aprime"`. -/
theorem C2_album_name_precedence_witness :
    (buildAlbum envNamed "X" "A" [trackAlbumA] "").name =
      (buildAlbumMergedInfo envNamed "X" "A").name :=
  (C2_album_name_precedence envNamed "X" "A" [trackAlbumA] "").1 (by decide)

/-! ## Error handling of the TheAudioDB service -/

theorem findSome?_none_of_all_none {α β : Type} (l : List α) (f : α → Option β)
    (h : ∀ x ∈ l, f x = none) : l.findSome? f = none := by
  induction l with
  | nil => rfl
  | cons x xs ih =>
    rw [List.findSome?_cons, h x (List.mem_cons_self _ _)]
    exact ih (fun y hy => h y (List.mem_cons_of_mem _ hy))

theorem makeRequest_none (env : TadbEnv) (ep : String) (ps : List (String × String))
    (n : Nat) (h : ∀ i, (env.request ep ps i).toOption = none) :
    makeRequest env ep ps n = none :=
  findSome?_none_of_all_none _ _ (fun i _ => h i)

/-- C5: `fetch_artist_info` and `fetch_album_info` always return an info
value — the `try/except Exception` around each body converts any raised
exception (MusicBrainz lookup or image upload) into the partially-filled
result — and when every HTTP attempt fails at transport level after retries,
both degrade to the empty info value.  The catalog builder therefore consumes
total lookup functions and completes on every input. -/
theorem C5_lookup_failures_degrade (env : TadbEnv) (cached : Option (String × String))
    (artistName albumName nm : String) :
    (fetchArtistInfoE env nm).isOk = true ∧
    (fetchAlbumInfoE env cached artistName albumName).isOk = true ∧
    ((∀ ep ps i, (env.request ep ps i).toOption = none) →
      fetchArtistInfoE env nm = .ok {} ∧
      fetchAlbumInfoE env cached artistName albumName = .ok {}) := by
  refine ⟨?_, ?_, ?_⟩
  · cases h : fetchArtistInfoBody env nm with
    | ok r => simp [fetchArtistInfoE, h, Except.isOk, Except.toBool]
    | error e => simp [fetchArtistInfoE, h, Except.isOk, Except.toBool]
  · cases h : fetchAlbumInfoBody env cached artistName albumName with
    | ok r => simp [fetchAlbumInfoE, h, Except.isOk, Except.toBool]
    | error e => simp [fetchAlbumInfoE, h, Except.isOk, Except.toBool]
  · intro hall
    have hmr : ∀ ep ps, makeRequest env ep ps 3 = none :=
      fun ep ps => makeRequest_none env ep ps 3 (hall ep ps)
    constructor
    · have hs : searchArtistData env nm = none := by
        apply findSome?_none_of_all_none
        intro v _
        rw [hmr]
      simp [fetchArtistInfoE, fetchArtistInfoBody, hs]
    · have hsa : ∀ c q, searchAlbumData env c q = none := by
        intro c q
        simp [searchAlbumData, hmr]
      rcases hmb : env.mbReleaseDetails with _ | mbf
      · rcases cached with _ | c <;>
          simp [fetchAlbumInfoE, fetchAlbumInfoBody, hmb, hmr, hsa]
      · rcases hr : mbf artistName albumName with e | rd
        · simp [fetchAlbumInfoE, fetchAlbumInfoBody, hmb, hr]
        · rcases cached with _ | c <;>
            simp only [fetchAlbumInfoE, fetchAlbumInfoBody, hmb, hr, hmr, hsa] <;>
            split_ifs <;> simp

/-- Witness for C5: with every transport attempt failing, the artist fetch
returns a value and the album fetch returns the empty info. -/
theorem C5_lookup_failures_degrade_witness :
    (fetchArtistInfoE tadbEnvDown "B.O.B").isOk = true ∧
    fetchAlbumInfoE tadbEnvDown none "X" "A" = .ok {} :=
  ⟨(C5_lookup_failures_degrade tadbEnvDown none "X" "A" "B.O.B").1,
   ((C5_lookup_failures_degrade tadbEnvDown none "X" "A" "B.O.B").2.2
     (fun _ _ _ => rfl)).2⟩

/-! ## The sanitizer pipeline: shape of its output and its fixed points

The adjacency invariant "no two neighbouring dashes" is expressed as
`List.Chain' (fun a b => isDashChar a = false ∨ isDashChar b = false)`. -/

theorem charDash_eq {c : Char} (h : isDashChar c = true) : c = '-' := by
  apply charEq_of_toNat
  simp only [isDashChar, beq_iff_eq] at h
  simpa using h

theorem alnumDash_not_spaceUnderscore (c : Char) (h : isAlnumDash c = true) :
    spaceOrUnderscore c = false := by
  simp only [isAlnumDash, Bool.or_eq_true, Bool.and_eq_true, decide_eq_true_eq,
    beq_iff_eq] at h
  rw [Bool.eq_false_iff]
  intro hcontra
  simp only [spaceOrUnderscore, pySpace, Bool.or_eq_true, Bool.and_eq_true,
    decide_eq_true_eq, beq_iff_eq] at hcontra
  omega

theorem collapseAux_id_of_not (p : Char → Bool) :
    ∀ (l : List Char) (flag : Bool), (∀ c ∈ l, p c = false) →
      collapseAux p flag l = l := by
  intro l
  induction l with
  | nil => intro _ _; rfl
  | cons c cs ih =>
    intro flag h
    have hc := h c (List.mem_cons_self _ _)
    simp only [collapseAux, hc, Bool.false_eq_true, if_false]
    rw [ih false (fun x hx => h x (List.mem_cons_of_mem _ hx))]

theorem collapseAux_mem (p : Char → Bool) :
    ∀ (l : List Char) (flag : Bool) (c : Char),
      c ∈ collapseAux p flag l → c = '-' ∨ c ∈ l := by
  intro l
  induction l with
  | nil => intro flag c h; simp [collapseAux] at h
  | cons x xs ih =>
    intro flag c h
    by_cases hx : p x
    · by_cases hflag : flag = true
      · rw [show collapseAux p flag (x :: xs) = collapseAux p true xs by
          simp [collapseAux, hx, hflag]] at h
        rcases ih true c h with h | h
        · exact Or.inl h
        · exact Or.inr (List.mem_cons_of_mem _ h)
      · rw [show collapseAux p flag (x :: xs) = '-' :: collapseAux p true xs by
          have : flag = false := by revert hflag; cases flag <;> simp
          simp [collapseAux, hx, this]] at h
        rcases List.mem_cons.mp h with h | h
        · exact Or.inl h
        · rcases ih true c h with h | h
          · exact Or.inl h
          · exact Or.inr (List.mem_cons_of_mem _ h)
    · rw [show collapseAux p flag (x :: xs) = x :: collapseAux p false xs by
        simp [collapseAux, hx]] at h
      rcases List.mem_cons.mp h with h | h
      · exact Or.inr (h ▸ List.mem_cons_self _ _)
      · rcases ih false c h with h | h
        · exact Or.inl h
        · exact Or.inr (List.mem_cons_of_mem _ h)

theorem collapseAux_dash_head :
    ∀ (l : List Char) (c : Char),
      (collapseAux isDashChar true l).head? = some c → isDashChar c = false := by
  intro l
  induction l with
  | nil => intro c h; simp [collapseAux] at h
  | cons x xs ih =>
    intro c h
    by_cases hx : isDashChar x
    · rw [show collapseAux isDashChar true (x :: xs) = collapseAux isDashChar true xs by
        simp [collapseAux, hx]] at h
      exact ih c h
    · rw [show collapseAux isDashChar true (x :: xs) =
          x :: collapseAux isDashChar false xs by simp [collapseAux, hx]] at h
      simp only [List.head?_cons, Option.some.injEq] at h
      rw [← h]
      exact Bool.eq_false_iff.mpr hx

theorem collapseAux_dash_chain :
    ∀ (l : List Char) (flag : Bool),
      List.Chain' (fun a b => isDashChar a = false ∨ isDashChar b = false)
        (collapseAux isDashChar flag l) := by
  intro l
  induction l with
  | nil => intro flag; simp [collapseAux]
  | cons x xs ih =>
    intro flag
    by_cases hx : isDashChar x
    · by_cases hflag : flag = true
      · rw [show collapseAux isDashChar flag (x :: xs) =
            collapseAux isDashChar true xs by simp [collapseAux, hx, hflag]]
        exact ih true
      · rw [show collapseAux isDashChar flag (x :: xs) =
            '-' :: collapseAux isDashChar true xs by
          have : flag = false := by revert hflag; cases flag <;> simp
          simp [collapseAux, hx, this]]
        rw [List.chain'_cons']
        refine ⟨fun y hy => Or.inr (collapseAux_dash_head xs y ?_), ih true⟩
        simpa using hy
    · rw [show collapseAux isDashChar flag (x :: xs) =
          x :: collapseAux isDashChar false xs by simp [collapseAux, hx]]
      rw [List.chain'_cons']
      exact ⟨fun y _ => Or.inl (Bool.eq_false_iff.mpr hx), ih false⟩

theorem collapseAux_dash_id :
    ∀ (l : List Char) (flag : Bool),
      List.Chain' (fun a b => isDashChar a = false ∨ isDashChar b = false) l →
      (flag = true → ∀ c, l.head? = some c → isDashChar c = false) →
      collapseAux isDashChar flag l = l := by
  intro l
  induction l with
  | nil => intro _ _ _; rfl
  | cons x xs ih =>
    intro flag hch hhead
    have hxs : List.Chain' (fun a b => isDashChar a = false ∨ isDashChar b = false) xs :=
      (List.chain'_cons'.mp hch).2
    by_cases hx : isDashChar x
    · have hflag : flag = false := by
        cases flag with
        | false => rfl
        | true => exact absurd hx (by simp [hhead rfl x rfl])
      subst hflag
      rw [show collapseAux isDashChar false (x :: xs) =
          '-' :: collapseAux isDashChar true xs by simp [collapseAux, hx]]
      rw [charDash_eq hx]
      congr 1
      apply ih true hxs
      intro _ c hc
      rcases (List.chain'_cons'.mp hch).1 c hc with h | h
      · exact absurd hx (by simp [h])
      · exact h
    · rw [show collapseAux isDashChar flag (x :: xs) =
          x :: collapseAux isDashChar false xs by simp [collapseAux, hx]]
      congr 1
      exact ih false hxs (by simp)

theorem dropWhile_head_not (p : Char → Bool) :
    ∀ (l : List Char) (c : Char), (l.dropWhile p).head? = some c → p c = false := by
  intro l
  induction l with
  | nil => intro c h; simp [List.dropWhile] at h
  | cons x xs ih =>
    intro c h
    rw [List.dropWhile_cons] at h
    by_cases hx : p x
    · rw [if_pos hx] at h
      exact ih c h
    · rw [if_neg hx] at h
      simp only [List.head?_cons, Option.some.injEq] at h
      rw [← h]
      exact Bool.eq_false_iff.mpr hx

theorem dropWhile_id_of_head (p : Char → Bool) (l : List Char)
    (h : ∀ c, l.head? = some c → p c = false) : l.dropWhile p = l := by
  cases l with
  | nil => rfl
  | cons x xs =>
    rw [List.dropWhile_cons, if_neg (by simp [h x rfl])]

theorem getLast?_dropWhile (p : Char → Bool) (l : List Char)
    (h : l.dropWhile p ≠ []) : (l.dropWhile p).getLast? = l.getLast? := by
  rcases List.dropWhile_suffix p (l := l) with ⟨t, ht⟩
  conv_rhs => rw [← ht]
  rw [List.getLast?_append]
  rcases hx : (l.dropWhile p).getLast? with _ | x
  · exact absurd (List.getLast?_eq_none_iff.mp hx) h
  · rfl

theorem stripDashes_subset (l : List Char) : ∀ c ∈ stripDashes l, c ∈ l := by
  intro c hc
  unfold stripDashes at hc
  rw [List.mem_reverse] at hc
  have h1 := (List.dropWhile_suffix isDashChar
    (l := (l.dropWhile isDashChar).reverse)).sublist.subset hc
  rw [List.mem_reverse] at h1
  exact (List.dropWhile_suffix isDashChar (l := l)).sublist.subset h1

theorem stripDashes_chain (l : List Char)
    (h : List.Chain' (fun a b => isDashChar a = false ∨ isDashChar b = false) l) :
    List.Chain' (fun a b => isDashChar a = false ∨ isDashChar b = false)
      (stripDashes l) := by
  unfold stripDashes
  have h1 := h.suffix (List.dropWhile_suffix isDashChar)
  have h2 : List.Chain' (fun a b => isDashChar a = false ∨ isDashChar b = false)
      (l.dropWhile isDashChar).reverse := by
    rw [List.chain'_reverse]
    exact h1.imp (fun a b hab => hab.elim Or.inr Or.inl)
  have h3 := h2.suffix (List.dropWhile_suffix isDashChar)
  rw [List.chain'_reverse]
  exact h3.imp (fun a b hab => hab.elim Or.inr Or.inl)

theorem stripDashes_head_not (l : List Char) :
    ∀ c, (stripDashes l).head? = some c → isDashChar c = false := by
  intro c hc
  unfold stripDashes at hc
  rw [List.head?_reverse] at hc
  have hne : (l.dropWhile isDashChar).reverse.dropWhile isDashChar ≠ [] := by
    intro h0
    rw [h0] at hc
    cases hc
  rw [getLast?_dropWhile _ _ hne, List.getLast?_reverse] at hc
  exact dropWhile_head_not isDashChar l c hc

theorem stripDashes_last_not (l : List Char) :
    ∀ c, (stripDashes l).getLast? = some c → isDashChar c = false := by
  intro c hc
  unfold stripDashes at hc
  rw [List.getLast?_reverse] at hc
  exact dropWhile_head_not isDashChar _ c hc

theorem stripDashes_id (l : List Char)
    (hh : ∀ c, l.head? = some c → isDashChar c = false)
    (hl : ∀ c, l.getLast? = some c → isDashChar c = false) :
    stripDashes l = l := by
  unfold stripDashes
  rw [dropWhile_id_of_head isDashChar l hh]
  rw [dropWhile_id_of_head isDashChar l.reverse
    (fun c hc => hl c (by rwa [List.head?_reverse] at hc))]
  exact List.reverse_reverse l

theorem sanitizePipeline_clean (l : List Char) :
    (∀ c ∈ sanitizePipeline l, isAlnumDash c = true) ∧
    List.Chain' (fun a b => isDashChar a = false ∨ isDashChar b = false)
      (sanitizePipeline l) ∧
    (∀ c, (sanitizePipeline l).head? = some c → isDashChar c = false) ∧
    (∀ c, (sanitizePipeline l).getLast? = some c → isDashChar c = false) := by
  refine ⟨?_, ?_, stripDashes_head_not _, stripDashes_last_not _⟩
  · intro c hc
    have h1 := stripDashes_subset _ c hc
    rcases collapseAux_mem isDashChar _ false c h1 with h | h
    · rw [h]; decide
    · exact List.of_mem_filter h
  · exact stripDashes_chain _ (collapseAux_dash_chain _ false)

theorem sanitizePipeline_fixpoint (l : List Char)
    (halnum : ∀ c ∈ l, isAlnumDash c = true)
    (hch : List.Chain' (fun a b => isDashChar a = false ∨ isDashChar b = false) l)
    (hh : ∀ c, l.head? = some c → isDashChar c = false)
    (hl : ∀ c, l.getLast? = some c → isDashChar c = false) :
    sanitizePipeline l = l := by
  unfold sanitizePipeline collapseRuns
  rw [collapseAux_id_of_not spaceOrUnderscore l false
    (fun c hc => alnumDash_not_spaceUnderscore c (halnum c hc))]
  rw [List.filter_eq_self.mpr halnum]
  rw [collapseAux_dash_id l false hch (by simp)]
  exact stripDashes_id l hh hl

/-- C6 counterexample: idempotence fails for a fallback that is not itself
sanitized — sanitizing the empty name returns the fallback `"a b"` verbatim,
but sanitizing that result dashes the space. -/
theorem C6_sanitize_idempotent_counterexample :
    sanitize_s3_key (sanitize_s3_key "" "a b") "a b" ≠ sanitize_s3_key "" "a b" := by
  decide

/-- C6 (amended): `sanitize_s3_key` is idempotent for every input string
whenever the fallback is itself a fixed point of the sanitizer (as the
default `"Unknown"` is); for a non-sanitized fallback the first application
can return the dirty fallback verbatim, which a second application changes.
On `"Hozier .( DeLuxe Version )"` it returns exactly
`"Hozier-DeLuxe-Version"`. -/
theorem C6_sanitize_idempotent :
    (∀ name fb, sanitize_s3_key fb fb = fb →
      sanitize_s3_key (sanitize_s3_key name fb) fb = sanitize_s3_key name fb) ∧
    sanitize_s3_key "Hozier .( DeLuxe Version )" "Unknown" = "Hozier-DeLuxe-Version" := by
  constructor
  · intro name fb hfb
    by_cases hn : name = ""
    · have h1 : sanitize_s3_key name fb = fb := by
        rw [hn]
        rfl
      rw [h1, hfb]
    · by_cases hs : sanitizePipeline name.data = []
      · have h1 : sanitize_s3_key name fb = fb := by
          unfold sanitize_s3_key
          rw [if_neg hn, if_pos hs]
        rw [h1, hfb]
      · have h1 : sanitize_s3_key name fb = String.mk (sanitizePipeline name.data) := by
          unfold sanitize_s3_key
          rw [if_neg hn, if_neg hs]
        rw [h1]
        have hne : String.mk (sanitizePipeline name.data) ≠ "" := by
          intro h0
          exact hs (congrArg String.data h0)
        have hclean := sanitizePipeline_clean name.data
        have hfix : sanitizePipeline (String.mk (sanitizePipeline name.data)).data =
            sanitizePipeline name.data :=
          sanitizePipeline_fixpoint _ hclean.1 hclean.2.1 hclean.2.2.1 hclean.2.2.2
        unfold sanitize_s3_key
        rw [if_neg hne, hfix, if_neg hs]
  · decide

/-- Witness for C6: the default fallback `"Unknown"` is a fixed point, and
sanitizing the Hozier edition string twice equals sanitizing it once. -/
theorem C6_sanitize_idempotent_witness :
    sanitize_s3_key (sanitize_s3_key "Hozier .( DeLuxe Version )" "Unknown") "Unknown" =
      sanitize_s3_key "Hozier .( DeLuxe Version )" "Unknown" :=
  C6_sanitize_idempotent.1 "Hozier .( DeLuxe Version )" "Unknown" (by decide)

/-- C7: `_normalize_album_name` never returns an empty string — for every
non-empty album name and every result of the edition-suffix pattern pass,
if the stripped (and whitespace-trimmed) result is empty the original input
is returned unchanged, otherwise the stripped result is returned. -/
theorem C7_normalize_never_empty (strip : String → String) (albumName : String)
    (h : albumName ≠ "") :
    normalizeAlbumName strip albumName ≠ "" ∧
    normalizeAlbumName strip albumName =
      (if pyStrip (strip albumName) = "" then albumName
       else pyStrip (strip albumName)) := by
  constructor
  · show (if pyStrip (strip albumName) = "" then albumName
      else pyStrip (strip albumName)) ≠ ""
    split_ifs with h1
    · exact h
    · exact h1
  · rfl

/-- Witness for C7: an input consisting solely of a stripped pattern comes
back unchanged and non-empty. -/
theorem C7_normalize_never_empty_witness :
    normalizeAlbumName (fun _ => "") "(Deluxe Version)" ≠ "" :=
  (C7_normalize_never_empty (fun _ => "") "(Deluxe Version)" (by decide)).1

/-- C8 counterexample: `" 2024"` does not start with four digits (its first
character is a space) and is neither empty nor whitespace-only, yet
`extract_year` strips it first and returns 2024 — contradicting the claim
that such strings give `None`. -/
theorem C8_extract_year_counterexample :
    extract_year (.dstr " 2024") = some 2024 ∧
    startsWith4Digits " 2024" = false := by
  constructor <;> decide

/-- C8 (amended): `extract_year` returns the integer unchanged for integer
inputs and `None` for `None`; string inputs are first stripped of surrounding
whitespace, then: an empty result gives `None`, a result not beginning with
four ASCII digits gives `None`, and a result beginning with four digits gives
their value (covering `YYYY`, `YYYY-MM`, `YYYY-MM-DD`).  In particular
`extract_year "2024-01" = 2024` and `extract_year "abc" = None`. -/
theorem C8_extract_year (i : Int) (s : String) :
    extract_year .dnone = none ∧
    extract_year (.dint i) = some i ∧
    (pyStrip s = "" → extract_year (.dstr s) = none) ∧
    (startsWith4Digits (pyStrip s) = false → extract_year (.dstr s) = none) ∧
    (∀ a1 b1 c1 d1 rest, (pyStrip s).data = a1 :: b1 :: c1 :: d1 :: rest →
      isAsciiDigit a1 = true → isAsciiDigit b1 = true → isAsciiDigit c1 = true →
      isAsciiDigit d1 = true →
      extract_year (.dstr s) =
        some ((1000 * digitToNat a1 + 100 * digitToNat b1 + 10 * digitToNat c1 +
          digitToNat d1 : Nat) : Int)) ∧
    extract_year (.dstr "2024-01") = some 2024 ∧
    extract_year (.dstr "abc") = none := by
  refine ⟨rfl, rfl, ?_, ?_, ?_, by decide, by decide⟩
  · intro h
    simp [extract_year, h]
  · intro h
    by_cases hds : pyStrip s = ""
    · simp [extract_year, hds]
    · simp only [extract_year, if_neg hds]
      rcases hd : (pyStrip s).data with _ | ⟨a1, _ | ⟨b1, _ | ⟨c1, _ | ⟨d1, rest⟩⟩⟩⟩ <;>
        try rfl
      simp only [startsWith4Digits, hd] at h
      simp [h]
  · intro a1 b1 c1 d1 rest hd ha hb hc hdd
    have hne : pyStrip s ≠ "" := by
      intro h0
      rw [h0] at hd
      cases hd
    simp only [extract_year, if_neg hne]
    rw [hd]
    simp [ha, hb, hc, hdd]

/-- Witness for C8: a whitespace-only string strips to empty and yields
`None`. -/
theorem C8_extract_year_witness : extract_year (.dstr " ") = none :=
  (C8_extract_year 0 " ").2.2.1 (by decide)

end Raven
